import Mathlib

/-!
Verification of the tinybox terminal-control library (`tinybox/tb.go`).

The Go source is shallowly embedded: byte buffers become `List Nat` (each
entry a byte value), Go `int` becomes `Int` where negative values matter and
`Nat` where the source guarantees non-negativity, grids become lists of lists
of cells, and the functions below are direct translations of the
correspondingly named Go functions.  Platform effects (ioctl, select, read,
signal delivery) are represented by explicit inputs (`SizeWorld`), and
terminal writes are returned as explicit byte lists.
-/

namespace Tb

/-- One screen cell, mirroring Go's `Cell` struct (`tb.go`).  `Ch` is the
rune's codepoint. -/
structure Cell where
  Ch : Nat := 0
  Fg : Int := 0
  Bg : Int := 0
  Bold : Bool := false
  Italic : Bool := false
  Under : Bool := false
  Rev : Bool := false
  Dirty : Bool := false
  deriving Repr, DecidableEq

/-- The zero `Cell`, used as the out-of-range default for grid reads. -/
def cellDefault : Cell := {}

/-- Mirror of Go's `Buffer` struct: a grid of cells plus its dimensions. -/
structure Buffer where
  Width : Nat := 0
  Height : Nat := 0
  Cells : List (List Cell) := []
  deriving Repr, DecidableEq

/-! Event/key/button enumerations.  Go declares these as `int` constants via
`iota`; we keep them as `Nat` values so that the decoder's arithmetic on key
codes (`Key(int(KeyF1) + ...)`) translates directly. -/

def EventKey : Nat := 0
def EventMouse : Nat := 1
def EventResize : Nat := 2
def EventPaste : Nat := 3

def KeyCtrlC : Nat := 1
def KeyCtrlD : Nat := 2
def KeyEscape : Nat := 3
def KeyEnter : Nat := 4
def KeyTab : Nat := 5
def KeyBackspace : Nat := 6
def KeyArrowUp : Nat := 7
def KeyArrowDown : Nat := 8
def KeyArrowLeft : Nat := 9
def KeyArrowRight : Nat := 10
def KeyCtrlA : Nat := 11
def KeyCtrlE : Nat := 12
def KeyCtrlK : Nat := 13
def KeyCtrlU : Nat := 14
def KeyCtrlW : Nat := 15
def KeyF1 : Nat := 16
def KeyF2 : Nat := 17
def KeyF3 : Nat := 18
def KeyF4 : Nat := 19
def KeyF5 : Nat := 20
def KeyHome : Nat := 28
def KeyEnd : Nat := 29
def KeyPageUp : Nat := 30
def KeyPageDown : Nat := 31
def KeyDelete : Nat := 32

def MouseLeft : Nat := 0
def MouseMiddle : Nat := 1
def MouseRight : Nat := 2
def MouseWheelUp : Nat := 3
def MouseWheelDown : Nat := 4

/-- Mirror of Go's `Event` struct.  Go's field `Type` is spelled `Etype`
here because `Type` is reserved in Lean.  Defaults are Go's zero values. -/
structure Event where
  Etype : Nat := 0
  Key : Nat := 0
  Ch : Nat := 0
  X : Int := 0
  Y : Int := 0
  Button : Nat := 0
  Mod : Nat := 0
  Press : Bool := false
  deriving Repr, DecidableEq

/-- The process-wide `Terminal` state (Go's `term` globals), minus the saved
termios snapshot and OS channels, which live in the platform layer.  The Go
event queue is a slice with capacity fixed at `Init`; we keep the capacity in
`eventCap`. -/
structure Terminal where
  buffer : Buffer := {}
  backBuffer : Buffer := {}
  width : Nat := 0
  height : Nat := 0
  initialized : Bool := false
  isRaw : Bool := false
  mouseEnabled : Bool := false
  pasteEnabled : Bool := false
  eventQueue : List Event := []
  eventCap : Nat := 0
  currentFg : Int := 0
  currentBg : Int := 0
  currentBold : Bool := false
  currentItalic : Bool := false
  currentUnder : Bool := false
  currentRev : Bool := false
  cursorX : Int := 0
  cursorY : Int := 0
  cursorVisible : Bool := false
  cursorStyle : Nat := 0
  escDelay : Nat := 0
  deriving Repr, DecidableEq

/-! ### Byte-buffer and grid access helpers -/

/-- `buf[i]` on a Go byte slice, with out-of-range reads (which the source
never performs) defaulting to `0`. -/
def byteAt (buf : List Nat) (i : Nat) : Nat := buf.getD i 0

/-- `g[y][x]` on a cell grid, defaulting to the zero cell out of range. -/
def cellAt (g : List (List Cell)) (y x : Nat) : Cell :=
  (g.getD y []).getD x cellDefault

/-- `g[y][x] = c` on a cell grid (no-op out of range, like slice bounds that
the source never exceeds). -/
def setCellAt (g : List (List Cell)) (y x : Nat) (c : Cell) : List (List Cell) :=
  g.set y ((g.getD y []).set x c)

/-- Dimension invariant the Go code maintains for both grids: `height` rows
of `width` cells each. -/
def gridShape (g : List (List Cell)) (h w : Nat) : Prop :=
  g.length = h ∧ ∀ row ∈ g, row.length = w

instance (g : List (List Cell)) (h w : Nat) : Decidable (gridShape g h w) := by
  unfold gridShape; infer_instance

/-- Go `initBuffer`: a fresh `width×height` grid of blank dirty cells
(space glyph, fg 7, bg 0, `Dirty` true). -/
def initBuffer (width height : Nat) : Buffer :=
  { Width := width, Height := height,
    Cells := List.replicate height
      (List.replicate width { Ch := 32, Fg := 7, Bg := 0, Dirty := true }) }

/-! ### Decimal rendering of input numbers

Used to build the byte sequences a terminal would send (SGR mouse reports,
cursor-position replies) and, below, the renderer's `strconv.AppendInt`.
`digitBytesAux` is fuel-structural so the kernel can evaluate it. -/

def digitBytesAux : Nat → Nat → List Nat
  | 0, _ => []
  | fuel + 1, n =>
    if n < 10 then [n + 48] else digitBytesAux fuel (n / 10) ++ [n % 10 + 48]

/-- ASCII decimal digits of `n`, most significant first. -/
def digitBytes (n : Nat) : List Nat := digitBytesAux (n + 1) n

/-! ### Input decoder (`parseDecimal`, `parseSGRMouse`, `parseMouseEvent`,
`parseInput` from `tb.go`) -/

/-- The digit-scanning loop inside Go's `parseDecimal`: consume ASCII digits,
accumulating `val = val*10 + digit`, and report the value together with the
index just past the last digit. -/
def parseDecimalAux : List Nat → Nat → Nat → Nat × Nat
  | [], idx, val => (val, idx)
  | b :: rest, idx, val =>
    if 48 ≤ b ∧ b ≤ 57 then parseDecimalAux rest (idx + 1) (val * 10 + (b - 48))
    else (val, idx)

/-- Go `parseDecimal(buf, idx)`: returns `(value, next, ok)`; `ok` is false
when `idx` is out of range or no digit is present at `idx`. -/
def parseDecimal (buf : List Nat) (idx : Nat) : Nat × Nat × Bool :=
  if buf.length ≤ idx then (0, idx, false)
  else
    match parseDecimalAux (buf.drop idx) idx 0 with
    | (val, next) => if next = idx then (0, idx, false) else (val, next, true)

/-- The button classification inside `parseSGRMouse`: low two bits select
left/middle/right (Go's switch has no case for 3, so the zero value
`MouseLeft` remains), and `button >= 64` reclassifies as wheel with direction
by bit-0 parity. -/
def sgrButton (button : Nat) : Nat :=
  let mb := match button % 4 with
    | 0 => MouseLeft
    | 1 => MouseMiddle
    | 2 => MouseRight
    | _ => MouseLeft
  if 64 ≤ button then (if button % 2 = 1 then MouseWheelDown else MouseWheelUp)
  else mb

/-- Go `parseSGRMouse`: decode `ESC [ < button ; x ; y (M|m)`.  Reported
coordinates are decremented by one (`X = x-1`, `Y = y-1`, as `Int` since the
result can be negative when the terminal reports 0). -/
def parseSGRMouse (buf : List Nat) : Except String Event :=
  if buf.length < 9 ∨ byteAt buf 0 ≠ 27 ∨ byteAt buf 1 ≠ 91 ∨ byteAt buf 2 ≠ 60 then
    .error "not SGR mouse format"
  else
    let r1 := parseDecimal buf 3
    if r1.2.2 = false then .error "invalid SGR mouse button"
    else if ¬ (r1.2.1 < buf.length ∧ byteAt buf r1.2.1 = 59) then
      .error "invalid SGR mouse separator"
    else
      let r2 := parseDecimal buf (r1.2.1 + 1)
      if r2.2.2 = false then .error "invalid SGR mouse x"
      else if ¬ (r2.2.1 < buf.length ∧ byteAt buf r2.2.1 = 59) then
        .error "invalid SGR mouse separator"
      else
        let r3 := parseDecimal buf (r2.2.1 + 1)
        if r3.2.2 = false then .error "invalid SGR mouse y"
        else if buf.length ≤ r3.2.1 then .error "no SGR terminator found"
        else if byteAt buf r3.2.1 = 77 then
          .ok { Etype := EventMouse, Button := sgrButton r1.1,
                X := (r2.1 : Int) - 1, Y := (r3.1 : Int) - 1, Press := true }
        else if byteAt buf r3.2.1 = 109 then
          .ok { Etype := EventMouse, Button := sgrButton r1.1,
                X := (r2.1 : Int) - 1, Y := (r3.1 : Int) - 1, Press := false }
        else .error "invalid SGR mouse terminator"

/-- The button classification inside `parseMouseEvent` (legacy X10 mouse):
low two bits as in SGR, but the wheel reclassification tests bit 6
(`b & 64 != 0`) instead of `b >= 64`. -/
def legacyButton (b : Nat) : Nat :=
  let mb := match b % 4 with
    | 0 => MouseLeft
    | 1 => MouseMiddle
    | 2 => MouseRight
    | _ => MouseLeft
  if b &&& 64 ≠ 0 then (if b % 2 = 1 then MouseWheelDown else MouseWheelUp)
  else mb

/-- Go `parseMouseEvent(buf)` for the legacy `ESC [ M` protocol.  The button
byte is `buf[0] - 32` computed in Go byte arithmetic, i.e. modulo 256
(`(b + 224) % 256` below); `x`/`y` are `int(buf[1]) - 32` / `int(buf[2]) - 32`
with no further decrement, and the event is always a press. -/
def parseMouseEvent (buf : List Nat) : Except String Event :=
  if buf.length < 3 then .error "incomplete mouse event"
  else
    let b := (byteAt buf 0 + 224) % 256
    .ok { Etype := EventMouse, Button := legacyButton b,
          X := (byteAt buf 1 : Int) - 32, Y := (byteAt buf 2 : Int) - 32,
          Press := true }

/-- The remainder of `parseInput`'s `ESC` branch after the SGR attempt: the
`len(buf) >= 3 && buf[1] == '['` switch on `buf[2]`, the F1–F5 check, and the
final fallback to the Escape key. -/
def parseEscTail (buf : List Nat) : Except String Event :=
  if 3 ≤ buf.length ∧ byteAt buf 1 = 91 then
    if byteAt buf 2 = 65 then .ok { Etype := EventKey, Key := KeyArrowUp }
    else if byteAt buf 2 = 66 then .ok { Etype := EventKey, Key := KeyArrowDown }
    else if byteAt buf 2 = 67 then .ok { Etype := EventKey, Key := KeyArrowRight }
    else if byteAt buf 2 = 68 then .ok { Etype := EventKey, Key := KeyArrowLeft }
    else if byteAt buf 2 = 72 then .ok { Etype := EventKey, Key := KeyHome }
    else if byteAt buf 2 = 70 then .ok { Etype := EventKey, Key := KeyEnd }
    else if byteAt buf 2 = 49 ∧ 4 ≤ buf.length ∧ byteAt buf 3 = 126 then
      .ok { Etype := EventKey, Key := KeyHome }
    else if byteAt buf 2 = 51 ∧ 4 ≤ buf.length ∧ byteAt buf 3 = 126 then
      .ok { Etype := EventKey, Key := KeyDelete }
    else if byteAt buf 2 = 53 ∧ 4 ≤ buf.length ∧ byteAt buf 3 = 126 then
      .ok { Etype := EventKey, Key := KeyPageUp }
    else if byteAt buf 2 = 54 ∧ 4 ≤ buf.length ∧ byteAt buf 3 = 126 then
      .ok { Etype := EventKey, Key := KeyPageDown }
    else if byteAt buf 2 = 77 ∧ 6 ≤ buf.length then
      parseMouseEvent ((buf.drop 3).take 3)
    else if 5 ≤ buf.length ∧ byteAt buf 2 = 49 ∧
            (49 ≤ byteAt buf 3 ∧ byteAt buf 3 ≤ 53) ∧ byteAt buf 4 = 126 then
      .ok { Etype := EventKey, Key := KeyF1 + (byteAt buf 3 - 49) }
    else .ok { Etype := EventKey, Key := KeyEscape }
  else .ok { Etype := EventKey, Key := KeyEscape }

/-- Go `parseInput`: classify one raw input chunk into an event. -/
def parseInput (buf : List Nat) : Except String Event :=
  if buf.length = 0 then .error "no input"
  else
    if byteAt buf 0 = 27 then
      if buf.length = 1 then .ok { Etype := EventKey, Key := KeyEscape }
      else if 6 ≤ buf.length ∧ byteAt buf 1 = 91 ∧ byteAt buf 2 = 60 then
        match parseSGRMouse buf with
        | .ok evt => .ok evt
        | .error _ => parseEscTail buf
      else parseEscTail buf
    else if byteAt buf 0 = 1 then .ok { Etype := EventKey, Key := KeyCtrlA }
    else if byteAt buf 0 = 3 then .ok { Etype := EventKey, Key := KeyCtrlC }
    else if byteAt buf 0 = 4 then .ok { Etype := EventKey, Key := KeyCtrlD }
    else if byteAt buf 0 = 5 then .ok { Etype := EventKey, Key := KeyCtrlE }
    else if byteAt buf 0 = 9 then .ok { Etype := EventKey, Key := KeyTab }
    else if byteAt buf 0 = 11 then .ok { Etype := EventKey, Key := KeyCtrlK }
    else if byteAt buf 0 = 13 then .ok { Etype := EventKey, Key := KeyEnter }
    else if byteAt buf 0 = 21 then .ok { Etype := EventKey, Key := KeyCtrlU }
    else if byteAt buf 0 = 23 then .ok { Etype := EventKey, Key := KeyCtrlW }
    else if byteAt buf 0 = 127 then .ok { Etype := EventKey, Key := KeyBackspace }
    else .ok { Etype := EventKey, Ch := byteAt buf 0 }

/-- The byte sequence `ESC [ < b ; x ; y (M|m)` a terminal sends for an SGR
mouse report, with `b`, `x`, `y` in canonical decimal. -/
def mkSGR (b x y : Nat) (press : Bool) : List Nat :=
  [27, 91, 60] ++ (digitBytes b ++ ([59] ++ (digitBytes x ++ ([59] ++
    (digitBytes y ++ [if press then 77 else 109])))))

/-- The event the decoder is expected to produce for `mkSGR b x y press`. -/
def sgrEvent (b x y : Nat) (press : Bool) : Event :=
  { Etype := EventMouse, Button := sgrButton b,
    X := (x : Int) - 1, Y := (y : Int) - 1, Press := press }

/-! ### Renderer (`Present` and its emission helpers from `tb.go`)

Output is a `List Nat` of byte values; `syscall.Write` happens in the source
only when that list is non-empty, so "writes zero bytes" is `output = []`. -/

/-- The fixed SGR attribute byte strings (`seqSetBold` etc.). -/
def seqSetBold : List Nat := [27, 91, 49, 109]
def seqUnsetBold : List Nat := [27, 91, 50, 50, 109]
def seqSetItalic : List Nat := [27, 91, 51, 109]
def seqUnsetItalic : List Nat := [27, 91, 50, 51, 109]
def seqSetUnderline : List Nat := [27, 91, 52, 109]
def seqUnsetUnderline : List Nat := [27, 91, 50, 52, 109]
def seqSetReverse : List Nat := [27, 91, 55, 109]
def seqUnsetReverse : List Nat := [27, 91, 50, 55, 109]
def resetColorSeq : List Nat := [27, 91, 48, 109]

/-- Go `appendInt` (`strconv.AppendInt` base 10). -/
def intBytes (i : Int) : List Nat :=
  if i < 0 then 45 :: digitBytes (-i).toNat else digitBytes i.toNat

/-- Go `appendCursorMove`: clamp row/col to at least 1, then append
`ESC [ row ; col H`. -/
def appendCursorMove (out : List Nat) (row col : Int) : List Nat :=
  let row := if row < 1 then 1 else row
  let col := if col < 1 then 1 else col
  out ++ ([27, 91] ++ (intBytes row ++ ([59] ++ (intBytes col ++ [72]))))

/-- Go `appendSet256Color`: clamp the palette index to `[0,255]`, then append
`ESC [ 38;5;v m` (fg) or `ESC [ 48;5;v m` (bg). -/
def appendSet256Color (out : List Nat) (fg : Bool) (value : Int) : List Nat :=
  let v := if value < 0 then 0 else if 255 < value then 255 else value
  out ++ ([27, 91] ++ ((if fg then [51, 56] else [52, 56]) ++
    ([59, 53, 59] ++ (intBytes v ++ [109]))))

/-- Go's `utf8.EncodeRune`: invalid scalar values (surrogates or beyond
U+10FFFF) encode as U+FFFD. -/
def utf8Encode (c : Nat) : List Nat :=
  if c < 128 then [c]
  else if c < 2048 then [192 + c / 64, 128 + c % 64]
  else if 55296 ≤ c ∧ c ≤ 57343 then [239, 191, 189]
  else if c < 65536 then [224 + c / 4096, 128 + c / 64 % 64, 128 + c % 64]
  else if c ≤ 1114111 then
    [240 + c / 262144, 128 + c / 4096 % 64, 128 + c / 64 % 64, 128 + c % 64]
  else [239, 191, 189]

/-- The local variables threaded through `Present`'s row-major pass. -/
structure RenderState where
  output : List Nat
  lastY : Int
  lastX : Int
  activeFg : Int
  activeBg : Int
  activeBold : Bool
  activeItalic : Bool
  activeUnder : Bool
  activeRev : Bool
  dirtyWritten : Bool
  front : List (List Cell)
  back : List (List Cell)
  deriving Repr, DecidableEq

/-- One iteration of `Present`'s inner loop at cell `(y,x)`:
skip clean cells; for a dirty cell equal to the back-buffer cell just clear
the dirty bit; otherwise emit reposition/attribute/color changes and the
glyph, copy the cell into the back buffer (Go's `*back = *curr` copies it
before the dirty bit is cleared), clear the dirty bit, and advance the
emission cursor.  Go's guarded updates `if a != v { ...; a = v }` leave the
active values equal to the cell's values, written here directly. -/
def presentCell (st : RenderState) (y x : Nat) : RenderState :=
  let curr := cellAt st.front y x
  let back := cellAt st.back y x
  if curr.Dirty = false then st
  else if curr.Ch = back.Ch ∧ curr.Fg = back.Fg ∧ curr.Bg = back.Bg ∧
          curr.Bold = back.Bold ∧ curr.Italic = back.Italic ∧
          curr.Under = back.Under ∧ curr.Rev = back.Rev then
    { st with front := setCellAt st.front y x { curr with Dirty := false } }
  else
    let o1 := if st.lastY ≠ (y : Int) ∨ st.lastX ≠ (x : Int) then
        appendCursorMove st.output ((y : Int) + 1) ((x : Int) + 1)
      else st.output
    let o2 := if curr.Bold ≠ st.activeBold then
        o1 ++ (if curr.Bold then seqSetBold else seqUnsetBold) else o1
    let o3 := if curr.Italic ≠ st.activeItalic then
        o2 ++ (if curr.Italic then seqSetItalic else seqUnsetItalic) else o2
    let o4 := if curr.Under ≠ st.activeUnder then
        o3 ++ (if curr.Under then seqSetUnderline else seqUnsetUnderline) else o3
    let o5 := if curr.Rev ≠ st.activeRev then
        o4 ++ (if curr.Rev then seqSetReverse else seqUnsetReverse) else o4
    let o6 := if curr.Fg ≠ st.activeFg then appendSet256Color o5 true curr.Fg else o5
    let o7 := if curr.Bg ≠ st.activeBg then appendSet256Color o6 false curr.Bg else o6
    { output := o7 ++ utf8Encode curr.Ch,
      lastY := (y : Int), lastX := (x : Int) + 1,
      activeFg := curr.Fg, activeBg := curr.Bg,
      activeBold := curr.Bold, activeItalic := curr.Italic,
      activeUnder := curr.Under, activeRev := curr.Rev,
      dirtyWritten := true,
      front := setCellAt st.front y x { curr with Dirty := false },
      back := setCellAt st.back y x curr }

/-- `Present`'s nested `for y / for x` loops. -/
def presentPass (w h : Nat) (st : RenderState) : RenderState :=
  (List.range h).foldl
    (fun s y => (List.range w).foldl (fun s x => presentCell s y x) s) st

/-- Go `Present()`: early-return on an empty grid; otherwise run the diff
pass, append one global reset if anything was emitted, and finally reposition
the hardware cursor whenever it is visible with non-negative coordinates
(this last step is unconditional on whether anything was emitted).  Returns
the updated state and the bytes written. -/
def Present (t : Terminal) : Terminal × List Nat :=
  if t.width = 0 ∨ t.height = 0 then (t, [])
  else
    let st0 : RenderState :=
      { output := [], lastY := -1, lastX := -1, activeFg := -1, activeBg := -1,
        activeBold := false, activeItalic := false, activeUnder := false,
        activeRev := false, dirtyWritten := false,
        front := t.buffer.Cells, back := t.backBuffer.Cells }
    let st := presentPass t.width t.height st0
    let out1 := if st.dirtyWritten then st.output ++ resetColorSeq else st.output
    let out2 := if t.cursorVisible ∧ 0 ≤ t.cursorX ∧ 0 ≤ t.cursorY then
        appendCursorMove out1 (t.cursorY + 1) (t.cursorX + 1)
      else out1
    ({ t with buffer := { t.buffer with Cells := st.front },
              backBuffer := { t.backBuffer with Cells := st.back } }, out2)

/-! ### Drawing-state operations (`SetCell`, `GetCell`, `Clear`) -/

/-- Go `SetCell(x, y, ch, fg, bg)`: no-op outside `[0,width)×[0,height)`;
otherwise merge with the attribute pen and write + mark dirty only if the
resulting cell differs from the current front cell. -/
def SetCell (t : Terminal) (x y : Int) (ch : Nat) (fg bg : Int) : Terminal :=
  if x < 0 ∨ (t.width : Int) ≤ x ∨ y < 0 ∨ (t.height : Int) ≤ y then t
  else
    let cell := cellAt t.buffer.Cells y.toNat x.toNat
    if cell.Ch ≠ ch ∨ cell.Fg ≠ fg ∨ cell.Bg ≠ bg ∨
       cell.Bold ≠ t.currentBold ∨ cell.Italic ≠ t.currentItalic ∨
       cell.Under ≠ t.currentUnder ∨ cell.Rev ≠ t.currentRev then
      { t with buffer := { t.buffer with Cells :=
          (setCellAt t.buffer.Cells y.toNat x.toNat
            { Ch := ch, Fg := fg, Bg := bg,
              Bold := t.currentBold, Italic := t.currentItalic,
              Under := t.currentUnder, Rev := t.currentRev, Dirty := true }) } }
    else t

/-- Go `GetCell(x, y)`: out of bounds returns the blank-cell values
`(' ', 7, 0)`; in bounds reads the front buffer. -/
def GetCell (t : Terminal) (x y : Int) : Nat × Int × Int :=
  if x < 0 ∨ (t.width : Int) ≤ x ∨ y < 0 ∨ (t.height : Int) ≤ y then (32, 7, 0)
  else
    let c := cellAt t.buffer.Cells y.toNat x.toNat
    (c.Ch, c.Fg, c.Bg)

/-- The `for x < w` loop body shared by `Clear`: overwrite every cell with
index `< w` (starting the count at `x0`) with the constant `c`. -/
def fillRow (w : Nat) (c : Cell) : Nat → List Cell → List Cell
  | _, [] => []
  | x, a :: rest => (if x < w then c else a) :: fillRow w c (x + 1) rest

/-- The `for y < h` loop: apply `fillRow` to every row with index `< h`. -/
def fillGrid (h w : Nat) (c : Cell) : Nat → List (List Cell) → List (List Cell)
  | _, [] => []
  | y, row :: rest =>
    (if y < h then fillRow w c 0 row else row) :: fillGrid h w c (y + 1) rest

/-- Go `Clear()`: reset the pen, fill the front buffer with blank dirty cells
and the back buffer with `'X'` cells that are not dirty. -/
def Clear (t : Terminal) : Terminal :=
  { t with
    currentFg := 7, currentBg := 0, currentBold := false,
    currentItalic := false, currentUnder := false, currentRev := false,
    buffer := { t.buffer with Cells :=
      (fillGrid t.height t.width { Ch := 32, Fg := 7, Bg := 0, Dirty := true } 0
        t.buffer.Cells) },
    backBuffer := { t.backBuffer with Cells :=
      (fillGrid t.height t.width { Ch := 88, Fg := 0, Bg := 0, Dirty := false } 0
        t.backBuffer.Cells) } }

/-! ### Suspend / Resume -/

def ClearScreenSeq : List Nat := [27, 91, 50, 74]
def ShowCursorSeq : List Nat := [27, 91, 63, 50, 53, 104]
def HideCursorSeq : List Nat := [27, 91, 63, 50, 53, 108]
def AlternateScreenSeq : List Nat := [27, 91, 63, 49, 48, 52, 57, 104]
def NormalScreenSeq : List Nat := [27, 91, 63, 49, 48, 52, 57, 108]

/-- The `Dirty := true` marking loop in `Resume` for one row (`for x <
width`). -/
def markRowDirty (w : Nat) : Nat → List Cell → List Cell
  | _, [] => []
  | x, c :: rest =>
    (if x < w then { c with Dirty := true } else c) :: markRowDirty w (x + 1) rest

/-- The `Dirty := true` marking loop in `Resume` over rows (`for y <
height`). -/
def markAllDirty (h w : Nat) : Nat → List (List Cell) → List (List Cell)
  | _, [] => []
  | y, row :: rest =>
    (if y < h then markRowDirty w 0 row else row) :: markAllDirty h w (y + 1) rest

/-- Go `Suspend()`: no-op when uninitialized; otherwise leave raw mode
(`disableRawMode`'s platform error is discarded by the source), emit
clear-screen / show-cursor / leave-alternate-screen, then raise SIGTSTP
(a platform effect outside the state).  Returns the state and bytes
written. -/
def Suspend (t : Terminal) : Terminal × List Nat :=
  if t.initialized = false then (t, [])
  else ({ t with isRaw := false },
        ClearScreenSeq ++ ShowCursorSeq ++ NormalScreenSeq)

/-- Go `Resume()`: no-op when uninitialized; otherwise re-enter raw mode
(platform error discarded), emit alternate-screen (plus hide-cursor when the
cursor is not visible) and clear-screen, and mark every front-buffer cell
dirty.  The back buffer is not touched. -/
def Resume (t : Terminal) : Terminal × List Nat :=
  if t.initialized = false then (t, [])
  else
    ({ t with
        isRaw := true,
        buffer := { t.buffer with Cells :=
          (markAllDirty t.height t.width 0 t.buffer.Cells) } },
     AlternateScreenSeq ++ (if t.cursorVisible = false then HideCursorSeq else [])
       ++ ClearScreenSeq)

/-! ### Size discovery, `Init`, and the resize listener

The platform calls these functions make (environment lookup, `TIOCGWINSZ`
ioctl, `select`, `read`) are represented by a `SizeWorld` record describing
what each call would return. -/

/-- The outside world as seen by size discovery and `Init`:
`envCols`/`envLines` are the `strconv.Atoi` results for `COLUMNS`/`LINES`
(0 when unset/unparseable, matching Go's discarded-error idiom);
`winsz` is the window-size ioctl result (`none` = ioctl failed);
`selReady` is whether `select` reported stdin readable in time (false covers
both a select error and a timeout, which the source treats alike);
`readData` is the bytes `read` returned (`none` = read error);
`rawOk` is whether the raw-mode termios calls succeed. -/
structure SizeWorld where
  envCols : Int := 0
  envLines : Int := 0
  winsz : Option (Nat × Nat) := none
  selReady : Bool := false
  readData : Option (List Nat) := none
  rawOk : Bool := true
  deriving Repr, DecidableEq

/-- The `fmt.Sscanf(response[2:], "%d;%dR", ...)` parse inside
`queryTermSize` and `GetCursorPos`, modelled as: a decimal number, `';'`, a
decimal number, `'R'` (trailing bytes ignored, as `Sscanf` does). -/
def parseCursorReport (s : List Nat) : Option (Nat × Nat) :=
  match parseDecimal s 0 with
  | (_, _, false) => none
  | (row, i1, true) =>
    if byteAt s i1 ≠ 59 then none
    else
      match parseDecimal s (i1 + 1) with
      | (_, _, false) => none
      | (col, i2, true) => if byteAt s i2 ≠ 82 then none else some (row, col)

/-- Go `queryTermSize`: emit a cursor-position request (the write is a
platform effect), wait up to 1 s for readability, read the reply and parse
`ESC [ row ; col R`.  A select failure/timeout or a read failure (or a reply
shorter than 6 bytes) returns `(80, 24)` **with an error**; a reply that
merely fails to parse returns `(80, 24)` with no error. -/
def queryTermSize (w : SizeWorld) : Nat × Nat × Option String :=
  if w.selReady = false then (80, 24, some "terminal size query timeout")
  else
    match w.readData with
    | none => (80, 24, some "failed to read terminal response")
    | some resp =>
      if resp.length < 6 then (80, 24, some "failed to read terminal response")
      else if byteAt resp 0 = 27 ∧ byteAt resp 1 = 91 then
        match parseCursorReport (resp.drop 2) with
        | some (row, col) => (col, row, none)
        | none => (80, 24, none)
      else (80, 24, none)

/-- Go `getTermSize`: environment override, then the window-size ioctl, then
the self-query fallback. -/
def getTermSize (w : SizeWorld) : Nat × Nat × Option String :=
  if 0 < w.envCols ∧ 0 < w.envLines then
    (w.envCols.toNat, w.envLines.toNat, none)
  else
    match w.winsz with
    | some (c, r) => (c, r, none)
    | none => queryTermSize w

/-- Go `Init()`: fail on double initialization; query the size and
**propagate any error**; enter raw mode (propagating its error); then build
both grids at the discovered size and set the initial session fields
(fg 7, bg 0, visible block cursor, 25 ms escape delay, a queue of capacity
256). -/
def Init (w : SizeWorld) (t : Terminal) : Except String Terminal :=
  if t.initialized = true then .error "terminal already initialized"
  else
    match getTermSize w with
    | (_, _, some e) => .error e
    | (width, height, none) =>
      if w.rawOk = false then .error "mode error"
      else
        .ok { t with
          width := width, height := height,
          buffer := initBuffer width height,
          backBuffer := initBuffer width height,
          eventQueue := [], eventCap := 256,
          initialized := true, isRaw := true,
          currentFg := 7, currentBg := 0,
          cursorVisible := true, cursorStyle := 1, escDelay := 25 }

/-- The synthetic event the resize listener queues. -/
def resizeEvent : Event := { Etype := EventResize }

/-- One reaction of Go's `handleSigwinch` loop to a SIGWINCH delivery:
re-query the size; if the query succeeded and the size changed, install the
new dimensions, reallocate both grids, and append one resize event only if
the queue is below capacity (otherwise the event is dropped). -/
def handleSigwinchStep (w : SizeWorld) (t : Terminal) : Terminal :=
  match getTermSize w with
  | (width, height, none) =>
    if width ≠ t.width ∨ height ≠ t.height then
      { t with
        width := width, height := height,
        buffer := initBuffer width height,
        backBuffer := initBuffer width height,
        eventQueue :=
          if t.eventQueue.length < t.eventCap then t.eventQueue ++ [resizeEvent]
          else t.eventQueue }
    else t
  | (_, _, some _) => t

/-- `Except.isOk` for our result type (kept local so concrete gate checks can
evaluate it). -/
def exceptIsOk {α : Type} : Except String α → Bool
  | .ok _ => true
  | .error _ => false

instance {ε α : Type} [DecidableEq ε] [DecidableEq α] :
    DecidableEq (Except ε α) := fun x y =>
  match x, y with
  | .ok a, .ok b =>
    if h : a = b then isTrue (by rw [h])
    else isFalse (fun hc => h (by cases hc; rfl))
  | .ok _, .error _ => isFalse (fun hc => Except.noConfusion hc)
  | .error _, .ok _ => isFalse (fun hc => Except.noConfusion hc)
  | .error e, .error f =>
    if h : e = f then isTrue (by rw [h])
    else isFalse (fun hc => h (by cases hc; rfl))

/-! ## Helper lemmas: list access -/

theorem byteAt_cons_zero (a : Nat) (l : List Nat) : byteAt (a :: l) 0 = a := rfl

theorem byteAt_cons_succ (a : Nat) (l : List Nat) (i : Nat) :
    byteAt (a :: l) (i + 1) = byteAt l i := rfl

theorem byteAt_append_right (A l : List Nat) (k : Nat) :
    byteAt (A ++ l) (A.length + k) = byteAt l k := by
  induction A with
  | nil => simp [byteAt]
  | cons a A ih =>
    simp only [byteAt, List.cons_append, List.length_cons, Nat.succ_add,
      List.getD_cons_succ] at *
    exact ih

theorem drop_length_append (A l : List Nat) : (A ++ l).drop A.length = l := by
  induction A with
  | nil => simp
  | cons a A ih => simp only [List.cons_append, List.length_cons, List.drop_succ_cons]; exact ih

theorem listSet_of_length_le {α : Type} (l : List α) (i : Nat) (v : α)
    (h : l.length ≤ i) : l.set i v = l := by
  induction l generalizing i with
  | nil => rfl
  | cons a l ih =>
    cases i with
    | zero => simp at h
    | succ i => simp only [List.set_cons_succ]; rw [ih i (by simpa using h)]

theorem getD_set_self {α : Type} (l : List α) (i : Nat) (v d : α)
    (h : i < l.length) : (l.set i v).getD i d = v := by
  induction l generalizing i with
  | nil => simp at h
  | cons a l ih =>
    cases i with
    | zero => rfl
    | succ i => simpa using ih i (by simpa using h)

theorem getD_set_ne {α : Type} (l : List α) (i j : Nat) (v d : α)
    (h : i ≠ j) : (l.set i v).getD j d = l.getD j d := by
  induction l generalizing i j with
  | nil => rfl
  | cons a l ih =>
    cases i with
    | zero => cases j with
      | zero => exact absurd rfl h
      | succ j => rfl
    | succ i => cases j with
      | zero => rfl
      | succ j => simpa using ih i j (fun hc => h (by rw [hc]))

theorem getD_mem {α : Type} (l : List α) (i : Nat) (d : α) (h : i < l.length) :
    l.getD i d ∈ l := by
  induction l generalizing i with
  | nil => simp at h
  | cons a l ih =>
    cases i with
    | zero => simp [List.getD]
    | succ i => exact List.mem_cons_of_mem a (ih i (by simp at h; omega))

theorem getD_replicate {α : Type} (n i : Nat) (a d : α) (h : i < n) :
    (List.replicate n a).getD i d = a := by
  induction n generalizing i with
  | zero => omega
  | succ n ih =>
    cases i with
    | zero => rfl
    | succ i => simpa [List.replicate_succ] using ih i (by omega)

/-! ## Helper lemmas: grid access -/

theorem getD_of_length_le {α : Type} (l : List α) (i : Nat) (d : α)
    (h : l.length ≤ i) : l.getD i d = d := by
  induction l generalizing i with
  | nil => rfl
  | cons a l ih =>
    cases i with
    | zero => simp at h
    | succ i => simpa using ih i (by simpa using h)

theorem cellAt_oob_row (g : List (List Cell)) (y x : Nat)
    (h : g.length ≤ y) : cellAt g y x = cellDefault := by
  unfold cellAt
  rw [getD_of_length_le g y [] h]
  rfl

theorem cellAt_oob_col (g : List (List Cell)) (y x : Nat)
    (h : (g.getD y []).length ≤ x) : cellAt g y x = cellDefault := by
  unfold cellAt
  rw [getD_of_length_le _ _ _ h]

theorem dirty_in_range (g : List (List Cell)) (y x : Nat)
    (h : (cellAt g y x).Dirty = true) :
    y < g.length ∧ x < (g.getD y []).length := by
  constructor
  · by_contra hy
    rw [cellAt_oob_row g y x (by omega)] at h
    simp [cellDefault] at h
  · by_contra hx
    rw [cellAt_oob_col g y x (by omega)] at h
    simp [cellDefault] at h

theorem cellAt_setCellAt_self (g : List (List Cell)) (y x : Nat) (c : Cell)
    (hy : y < g.length) (hx : x < (g.getD y []).length) :
    cellAt (setCellAt g y x c) y x = c := by
  unfold cellAt setCellAt
  rw [getD_set_self _ _ _ _ (by simpa using hy), getD_set_self _ _ _ _ hx]

theorem cellAt_setCellAt_ne (g : List (List Cell)) (y x y' x' : Nat) (c : Cell)
    (h : y' ≠ y ∨ x' ≠ x) :
    cellAt (setCellAt g y x c) y' x' = cellAt g y' x' := by
  unfold cellAt setCellAt
  rcases h with h | h
  · rw [getD_set_ne _ _ _ _ _ (fun hc => h hc.symm)]
  · by_cases hy : y' = y
    · subst hy
      by_cases hr : y' < g.length
      · rw [getD_set_self _ _ _ _ (by simpa using hr),
          getD_set_ne _ _ _ _ _ (fun hc => h hc.symm)]
      · rw [listSet_of_length_le _ _ _ (by omega)]
    · rw [getD_set_ne _ _ _ _ _ (fun hc => hy hc.symm)]

theorem length_setCellAt (g : List (List Cell)) (y x : Nat) (c : Cell) :
    (setCellAt g y x c).length = g.length := by
  unfold setCellAt; simp

theorem rowlen_setCellAt (g : List (List Cell)) (y x y' : Nat) (c : Cell) :
    ((setCellAt g y x c).getD y' []).length = (g.getD y' []).length := by
  unfold setCellAt
  by_cases hy : y' = y
  · subst hy
    by_cases hr : y' < g.length
    · rw [getD_set_self _ _ _ _ (by simpa using hr)]; simp
    · rw [listSet_of_length_le _ _ _ (by omega)]
  · rw [getD_set_ne _ _ _ _ _ (fun hc => hy hc.symm)]

theorem gridShape_rowlen {g : List (List Cell)} {h w : Nat}
    (hs : gridShape g h w) {y : Nat} (hy : y < h) : (g.getD y []).length = w := by
  exact hs.2 _ (getD_mem g y [] (by rw [hs.1]; exact hy))

/-! ## Helper lemmas: decimal digits and `parseDecimal` -/

theorem digitBytesAux_scan (fuel : Nat) :
    ∀ n, n < fuel → ∀ rest idx val,
      parseDecimalAux (digitBytesAux fuel n ++ rest) idx val =
        parseDecimalAux rest (idx + (digitBytesAux fuel n).length)
          (val * 10 ^ (digitBytesAux fuel n).length + n) := by
  induction fuel with
  | zero => intro n hn; omega
  | succ fuel ih =>
    intro n hn rest idx val
    by_cases h10 : n < 10
    · simp only [digitBytesAux, if_pos h10, List.cons_append, List.nil_append]
      have hd : 48 ≤ n + 48 ∧ n + 48 ≤ 57 := by omega
      simp only [parseDecimalAux, if_pos hd, List.length_cons, List.length_nil]
      have h1 : n + 48 - 48 = n := by omega
      rw [h1, pow_one]
    · simp only [digitBytesAux, if_neg h10]
      have hrec : n / 10 < fuel := by
        have h1 : n / 10 < n := Nat.div_lt_self (by omega) (by omega)
        omega
      rw [List.append_assoc, ih (n / 10) hrec]
      have hd : 48 ≤ n % 10 + 48 ∧ n % 10 + 48 ≤ 57 := by
        have := Nat.mod_lt n (show 0 < 10 by omega)
        omega
      have hsub : n % 10 + 48 - 48 = n % 10 := by omega
      simp only [List.cons_append, List.nil_append, parseDecimalAux, if_pos hd,
        hsub, List.length_append, List.length_cons, List.length_nil,
        Nat.add_zero, Nat.zero_add]
      have hmod : 10 * (n / 10) + n % 10 = n := Nat.div_add_mod n 10
      set L := (digitBytesAux fuel (n / 10)).length with hL
      have hidx : idx + L + 1 = idx + (L + 1) := by omega
      have hval : (val * 10 ^ L + n / 10) * 10 + n % 10 = val * 10 ^ (L + 1) + n := by
        have hpow : 10 ^ (L + 1) = 10 ^ L * 10 := by ring
        calc (val * 10 ^ L + n / 10) * 10 + n % 10
            = val * (10 ^ L * 10) + (10 * (n / 10) + n % 10) := by ring
          _ = val * 10 ^ (L + 1) + n := by rw [hmod, hpow]
      rw [hidx, hval]
      rfl

theorem parseDecimalAux_stop (l : List Nat) (idx val : Nat)
    (h : l = [] ∨ ¬ (48 ≤ byteAt l 0 ∧ byteAt l 0 ≤ 57)) :
    parseDecimalAux l idx val = (val, idx) := by
  cases l with
  | nil => rfl
  | cons b rest =>
    rcases h with h | h
    · exact absurd h (by simp)
    · simp only [byteAt_cons_zero] at h
      simp [parseDecimalAux, if_neg h]

theorem digitBytes_ne_nil (n : Nat) : digitBytes n ≠ [] := by
  unfold digitBytes digitBytesAux
  by_cases h : n < 10 <;> simp [h]

theorem digitBytes_scan (n : Nat) (rest : List Nat) (idx val : Nat) :
    parseDecimalAux (digitBytes n ++ rest) idx val =
      parseDecimalAux rest (idx + (digitBytes n).length)
        (val * 10 ^ (digitBytes n).length + n) :=
  digitBytesAux_scan (n + 1) n (Nat.lt_succ_self n) rest idx val

/-- Scanning a canonical decimal rendering of `n` placed after a prefix `A`,
with a non-digit (or nothing) following, yields exactly `n`. -/
theorem parseDecimal_digits (A : List Nat) (n : Nat) (rest : List Nat)
    (hrest : rest = [] ∨ ¬ (48 ≤ byteAt rest 0 ∧ byteAt rest 0 ≤ 57)) :
    parseDecimal (A ++ (digitBytes n ++ rest)) A.length =
      (n, A.length + (digitBytes n).length, true) := by
  have hlen : ¬ (A ++ (digitBytes n ++ rest)).length ≤ A.length := by
    have := digitBytes_ne_nil n
    have : 0 < (digitBytes n).length := List.length_pos.mpr this
    simp only [List.length_append]
    omega
  unfold parseDecimal
  rw [if_neg hlen, drop_length_append, digitBytes_scan,
    parseDecimalAux_stop rest _ _ hrest]
  have hL : 0 < (digitBytes n).length := List.length_pos.mpr (digitBytes_ne_nil n)
  simp only [Nat.zero_mul, Nat.zero_add]
  rw [if_neg (by omega)]

theorem byteAt_mid (A l : List Nat) (c : Nat) :
    byteAt (A ++ ([c] ++ l)) A.length = c := by
  have h := byteAt_append_right A ([c] ++ l) 0
  rw [Nat.add_zero] at h
  rw [h]
  rfl

/-! ## SGR mouse decoding: the general shape lemma -/

/-- Decoding a well-formed SGR report `ESC [ < b ; x ; y T` with terminator
`T ∈ {M, m}`: the button classification is `sgrButton`, the coordinates are
the reported ones minus 1, and the press flag is `T = M`. -/
theorem parseSGRMouse_core (b x y tb : Nat) (h77 : tb = 77 ∨ tb = 109) :
    parseSGRMouse ([27, 91, 60] ++ (digitBytes b ++ ([59] ++ (digitBytes x ++
        ([59] ++ (digitBytes y ++ [tb])))))) =
      Except.ok
        { Etype := EventMouse, Button := sgrButton b,
          X := (x : Int) - 1, Y := (y : Int) - 1, Press := decide (tb = 77) } := by
  set buf := [27, 91, 60] ++ (digitBytes b ++ ([59] ++ (digitBytes x ++
      ([59] ++ (digitBytes y ++ [tb]))))) with hbuf
  have hLb : 0 < (digitBytes b).length := List.length_pos.mpr (digitBytes_ne_nil b)
  have hLx : 0 < (digitBytes x).length := List.length_pos.mpr (digitBytes_ne_nil x)
  have hLy : 0 < (digitBytes y).length := List.length_pos.mpr (digitBytes_ne_nil y)
  have hlen : buf.length = 3 + (digitBytes b).length + 1 + (digitBytes x).length
      + 1 + (digitBytes y).length + 1 := by
    rw [hbuf]
    simp only [List.length_append, List.length_cons, List.length_nil]
    omega
  have hndtb : ¬ (48 ≤ tb ∧ tb ≤ 57) := by rcases h77 with h | h <;> omega
  -- prefix-length normalizations
  have hA1 : (([27, 91, 60] : List Nat) ++ digitBytes b).length
      = 3 + (digitBytes b).length := by
    simp only [List.length_append, List.cons_append, List.length_cons,
      List.length_nil]
    omega
  have hA2 : ((([27, 91, 60] : List Nat) ++ digitBytes b) ++ [59]).length
      = 3 + (digitBytes b).length + 1 := by
    simp only [List.length_append, List.cons_append, List.length_cons,
      List.length_nil]
    omega
  have hA3 : (((([27, 91, 60] : List Nat) ++ digitBytes b) ++ [59])
      ++ digitBytes x).length = 3 + (digitBytes b).length + 1
        + (digitBytes x).length := by
    simp only [List.length_append, List.cons_append, List.length_cons,
      List.length_nil]
    omega
  have hA4 : ((((([27, 91, 60] : List Nat) ++ digitBytes b) ++ [59])
      ++ digitBytes x) ++ [59]).length = 3 + (digitBytes b).length + 1
        + (digitBytes x).length + 1 := by
    simp only [List.length_append, List.cons_append, List.length_cons,
      List.length_nil]
    omega
  have hA5 : (((((([27, 91, 60] : List Nat) ++ digitBytes b) ++ [59])
      ++ digitBytes x) ++ [59]) ++ digitBytes y).length
      = 3 + (digitBytes b).length + 1 + (digitBytes x).length + 1
        + (digitBytes y).length := by
    simp only [List.length_append, List.cons_append, List.length_cons,
      List.length_nil]
    omega
  -- first decimal: the button
  have e1 : parseDecimal buf 3 = (b, 3 + (digitBytes b).length, true) := by
    have h := parseDecimal_digits [27, 91, 60] b
      ([59] ++ (digitBytes x ++ ([59] ++ (digitBytes y ++ [tb]))))
      (Or.inr (by simp [byteAt]))
    simp only [show ([27, 91, 60] : List Nat).length = 3 from rfl] at h
    rw [hbuf]
    exact h
  -- separator after the button
  have e1b : byteAt buf (3 + (digitBytes b).length) = 59 := by
    have hassoc : buf = ([27, 91, 60] ++ digitBytes b) ++
        ([59] ++ (digitBytes x ++ ([59] ++ (digitBytes y ++ [tb])))) := by
      rw [hbuf]; simp [List.append_assoc]
    have h := byteAt_mid ([27, 91, 60] ++ digitBytes b)
      (digitBytes x ++ ([59] ++ (digitBytes y ++ [tb]))) 59
    rw [hA1] at h
    rw [hassoc]
    exact h
  have hlt1 : 3 + (digitBytes b).length < buf.length := by omega
  -- second decimal: x
  have e2 : parseDecimal buf (3 + (digitBytes b).length + 1) =
      (x, 3 + (digitBytes b).length + 1 + (digitBytes x).length, true) := by
    have h := parseDecimal_digits (([27, 91, 60] ++ digitBytes b) ++ [59]) x
      ([59] ++ (digitBytes y ++ [tb])) (Or.inr (by simp [byteAt]))
    rw [hA2] at h
    have hassoc : (([27, 91, 60] ++ digitBytes b) ++ [59]) ++
        (digitBytes x ++ ([59] ++ (digitBytes y ++ [tb]))) = buf := by
      rw [hbuf]; simp [List.append_assoc]
    rw [hassoc] at h
    exact h
  -- separator after x
  have e2b : byteAt buf (3 + (digitBytes b).length + 1 + (digitBytes x).length)
      = 59 := by
    have hassoc : buf = ((([27, 91, 60] ++ digitBytes b) ++ [59]) ++ digitBytes x)
        ++ ([59] ++ (digitBytes y ++ [tb])) := by
      rw [hbuf]; simp [List.append_assoc]
    have h := byteAt_mid ((([27, 91, 60] ++ digitBytes b) ++ [59]) ++ digitBytes x)
      (digitBytes y ++ [tb]) 59
    rw [hA3] at h
    rw [hassoc]
    exact h
  have hlt2 : 3 + (digitBytes b).length + 1 + (digitBytes x).length < buf.length := by
    omega
  -- third decimal: y
  have e3 : parseDecimal buf (3 + (digitBytes b).length + 1 + (digitBytes x).length + 1)
      = (y, 3 + (digitBytes b).length + 1 + (digitBytes x).length + 1
          + (digitBytes y).length, true) := by
    have h := parseDecimal_digits
      (((([27, 91, 60] ++ digitBytes b) ++ [59]) ++ digitBytes x) ++ [59]) y [tb]
      (Or.inr (by simpa [byteAt] using hndtb))
    rw [hA4] at h
    have hassoc : ((((([27, 91, 60] ++ digitBytes b) ++ [59]) ++ digitBytes x)
        ++ [59]) ++ (digitBytes y ++ [tb])) = buf := by
      rw [hbuf]; simp [List.append_assoc]
    rw [hassoc] at h
    exact h
  -- the terminator byte
  have e3b : byteAt buf (3 + (digitBytes b).length + 1 + (digitBytes x).length + 1
      + (digitBytes y).length) = tb := by
    have hassoc : buf = ((((([27, 91, 60] ++ digitBytes b) ++ [59]) ++ digitBytes x)
        ++ [59]) ++ digitBytes y) ++ ([tb] ++ []) := by
      rw [hbuf]; simp [List.append_assoc]
    have h := byteAt_mid ((((([27, 91, 60] ++ digitBytes b) ++ [59]) ++ digitBytes x)
        ++ [59]) ++ digitBytes y) [] tb
    rw [hA5] at h
    rw [hassoc]
    exact h
  have hterm2 : ¬ buf.length ≤ 3 + (digitBytes b).length + 1 + (digitBytes x).length
      + 1 + (digitBytes y).length := by omega
  have h9 : ¬ buf.length < 9 := by omega
  have hb0 : byteAt buf 0 = 27 := by rw [hbuf]; rfl
  have hb1 : byteAt buf 1 = 91 := by rw [hbuf]; rfl
  have hb2 : byteAt buf 2 = 60 := by rw [hbuf]; rfl
  rcases h77 with h | h <;> subst h <;>
    simp only [parseSGRMouse, h9, hb0, hb1, hb2, e1, e1b, hlt1, e2, e2b, hlt2, e3,
      e3b, hterm2, ne_eq, not_false_eq_true, not_true_eq_false, false_or, or_self,
      if_false, if_true, and_self, not_and, and_true, true_and] <;>
    norm_num

theorem mkSGR_length (b x y : Nat) (press : Bool) :
    (mkSGR b x y press).length = 3 + (digitBytes b).length + 1
      + (digitBytes x).length + 1 + (digitBytes y).length + 1 := by
  unfold mkSGR
  simp only [List.length_append, List.cons_append, List.length_cons, List.length_nil]
  omega

theorem mkSGR_length_ge (b x y : Nat) (press : Bool) :
    9 ≤ (mkSGR b x y press).length := by
  have hLb := List.length_pos.mpr (digitBytes_ne_nil b)
  have hLx := List.length_pos.mpr (digitBytes_ne_nil x)
  have hLy := List.length_pos.mpr (digitBytes_ne_nil y)
  rw [mkSGR_length]
  omega

theorem parseSGRMouse_mkSGR (b x y : Nat) (press : Bool) :
    parseSGRMouse (mkSGR b x y press) = Except.ok (sgrEvent b x y press) := by
  cases press
  · simpa [mkSGR, sgrEvent] using parseSGRMouse_core b x y 109 (Or.inr rfl)
  · simpa [mkSGR, sgrEvent] using parseSGRMouse_core b x y 77 (Or.inl rfl)

/-- The full decoder path for an SGR mouse report: `parseInput` recognizes
the `ESC [ <` prefix and returns the SGR event. -/
theorem parseInput_mkSGR (b x y : Nat) (press : Bool) :
    parseInput (mkSGR b x y press) = Except.ok (sgrEvent b x y press) := by
  have h9 := mkSGR_length_ge b x y press
  unfold parseInput
  rw [if_neg (show ¬ (mkSGR b x y press).length = 0 by omega),
    if_pos (show byteAt (mkSGR b x y press) 0 = 27 from rfl),
    if_neg (show ¬ (mkSGR b x y press).length = 1 by omega),
    if_pos (show 6 ≤ (mkSGR b x y press).length ∧
        byteAt (mkSGR b x y press) 1 = 91 ∧ byteAt (mkSGR b x y press) 2 = 60
      from ⟨by omega, rfl, rfl⟩),
    parseSGRMouse_mkSGR]

/-! ## Decoder totality -/

theorem parseMouseEvent_of_len (l : List Nat) (h : 3 ≤ l.length) :
    parseMouseEvent l = Except.ok
      { Etype := EventMouse, Button := legacyButton ((byteAt l 0 + 224) % 256),
        X := (byteAt l 1 : Int) - 32, Y := (byteAt l 2 : Int) - 32,
        Press := true } := by
  unfold parseMouseEvent
  rw [if_neg (by omega)]

theorem exists_ok_ite (c : Prop) [Decidable c] (a : Event) (r : Except String Event)
    (hr : ∃ e, r = Except.ok e) :
    ∃ e, (if c then Except.ok a else r) = Except.ok e := by
  by_cases h : c
  · rw [if_pos h]; exact ⟨a, rfl⟩
  · rw [if_neg h]; exact hr

theorem parseEscTail_ok (buf : List Nat) : ∃ e, parseEscTail buf = Except.ok e := by
  unfold parseEscTail
  by_cases c0 : 3 ≤ buf.length ∧ byteAt buf 1 = 91
  case neg => rw [if_neg c0]; exact ⟨_, rfl⟩
  rw [if_pos c0]
  by_cases c1 : byteAt buf 2 = 65
  case pos => rw [if_pos c1]; exact ⟨_, rfl⟩
  rw [if_neg c1]
  by_cases c2 : byteAt buf 2 = 66
  case pos => rw [if_pos c2]; exact ⟨_, rfl⟩
  rw [if_neg c2]
  by_cases c3 : byteAt buf 2 = 67
  case pos => rw [if_pos c3]; exact ⟨_, rfl⟩
  rw [if_neg c3]
  by_cases c4 : byteAt buf 2 = 68
  case pos => rw [if_pos c4]; exact ⟨_, rfl⟩
  rw [if_neg c4]
  by_cases c5 : byteAt buf 2 = 72
  case pos => rw [if_pos c5]; exact ⟨_, rfl⟩
  rw [if_neg c5]
  by_cases c6 : byteAt buf 2 = 70
  case pos => rw [if_pos c6]; exact ⟨_, rfl⟩
  rw [if_neg c6]
  by_cases c7 : byteAt buf 2 = 49 ∧ 4 ≤ buf.length ∧ byteAt buf 3 = 126
  case pos => rw [if_pos c7]; exact ⟨_, rfl⟩
  rw [if_neg c7]
  by_cases c8 : byteAt buf 2 = 51 ∧ 4 ≤ buf.length ∧ byteAt buf 3 = 126
  case pos => rw [if_pos c8]; exact ⟨_, rfl⟩
  rw [if_neg c8]
  by_cases c9 : byteAt buf 2 = 53 ∧ 4 ≤ buf.length ∧ byteAt buf 3 = 126
  case pos => rw [if_pos c9]; exact ⟨_, rfl⟩
  rw [if_neg c9]
  by_cases c10 : byteAt buf 2 = 54 ∧ 4 ≤ buf.length ∧ byteAt buf 3 = 126
  case pos => rw [if_pos c10]; exact ⟨_, rfl⟩
  rw [if_neg c10]
  by_cases c11 : byteAt buf 2 = 77 ∧ 6 ≤ buf.length
  case pos =>
    rw [if_pos c11]
    exact ⟨_, parseMouseEvent_of_len _ (by
      simp only [List.length_take, List.length_drop]
      omega)⟩
  rw [if_neg c11]
  by_cases c12 : 5 ≤ buf.length ∧ byteAt buf 2 = 49 ∧
      (49 ≤ byteAt buf 3 ∧ byteAt buf 3 ≤ 53) ∧ byteAt buf 4 = 126
  case pos => rw [if_pos c12]; exact ⟨_, rfl⟩
  rw [if_neg c12]
  exact ⟨_, rfl⟩

/-- `parseInput` returns an event (never an error) on every non-empty
chunk. -/
theorem parseInput_ok (buf : List Nat) (h : buf ≠ []) :
    ∃ e, parseInput buf = Except.ok e := by
  unfold parseInput
  rw [if_neg (by simpa using h)]
  by_cases h27 : byteAt buf 0 = 27
  · rw [if_pos h27]
    by_cases hl1 : buf.length = 1
    · rw [if_pos hl1]; exact ⟨_, rfl⟩
    · rw [if_neg hl1]
      by_cases hc : 6 ≤ buf.length ∧ byteAt buf 1 = 91 ∧ byteAt buf 2 = 60
      · rw [if_pos hc]
        cases hs : parseSGRMouse buf with
        | ok e => exact ⟨e, rfl⟩
        | error s => exact parseEscTail_ok buf
      · rw [if_neg hc]; exact parseEscTail_ok buf
  · rw [if_neg h27]
    apply exists_ok_ite; apply exists_ok_ite; apply exists_ok_ite
    apply exists_ok_ite; apply exists_ok_ite; apply exists_ok_ite
    apply exists_ok_ite; apply exists_ok_ite; apply exists_ok_ite
    apply exists_ok_ite
    exact ⟨_, rfl⟩

/-! ## Legacy (X10) mouse decoding -/

/-- The full decoder path for a legacy mouse report `ESC [ M b1 b2 b3`. -/
theorem parseInput_legacyMouse (b1 b2 b3 : Nat) :
    parseInput [27, 91, 77, b1, b2, b3] = Except.ok
      { Etype := EventMouse, Button := legacyButton ((b1 + 224) % 256),
        X := (b2 : Int) - 32, Y := (b3 : Int) - 32, Press := true } := by
  have h := parseMouseEvent_of_len [b1, b2, b3] (by simp)
  simp only [byteAt, List.getD_cons_zero, List.getD_cons_succ] at h
  unfold parseInput
  rw [if_neg (by simp), if_pos (show byteAt [27, 91, 77, b1, b2, b3] 0 = 27 from rfl),
    if_neg (by simp), if_neg (by simp [byteAt])]
  unfold parseEscTail
  rw [if_pos (show 3 ≤ ([27, 91, 77, b1, b2, b3] : List Nat).length ∧
      byteAt [27, 91, 77, b1, b2, b3] 1 = 91 from ⟨by simp, rfl⟩)]
  rw [if_neg (by simp [byteAt]), if_neg (by simp [byteAt]), if_neg (by simp [byteAt]),
    if_neg (by simp [byteAt]), if_neg (by simp [byteAt]), if_neg (by simp [byteAt]),
    if_neg (by simp [byteAt]), if_neg (by simp [byteAt]), if_neg (by simp [byteAt]),
    if_neg (by simp [byteAt]),
    if_pos (show byteAt [27, 91, 77, b1, b2, b3] 2 = 77 ∧
      6 ≤ ([27, 91, 77, b1, b2, b3] : List Nat).length from ⟨rfl, by simp⟩)]
  exact h

set_option maxRecDepth 4096 in
/-- The legacy wheel test (`b & 64 ≠ 0`) and the SGR one (`b ≥ 64`) give
the same button classification exactly for byte-range codes outside
128–191: below 128 and in 192–255 the two rules coincide (bit 6 tracks
`b ≥ 64` there), while for 128–191 bit 6 is clear although `b ≥ 64`, so
legacy reports a plain button where the SGR rule reports a wheel. -/
theorem legacyButton_eq_sgrButton_iff : ∀ b, b < 256 →
    (legacyButton b = sgrButton b ↔ ¬ (128 ≤ b ∧ b ≤ 191)) := by decide

/-! ## Renderer lemmas -/

/-- Every dirty flag of the grid is clear. -/
def allClean (g : List (List Cell)) : Prop :=
  ∀ y x, (cellAt g y x).Dirty = false

/-- Two grids with the same row structure. -/
def sameShape (g g' : List (List Cell)) : Prop :=
  g.length = g'.length ∧ ∀ y, (g.getD y []).length = (g'.getD y []).length

theorem sameShape_refl (g : List (List Cell)) : sameShape g g :=
  ⟨rfl, fun _ => rfl⟩

theorem sameShape_trans {g1 g2 g3 : List (List Cell)}
    (h1 : sameShape g1 g2) (h2 : sameShape g2 g3) : sameShape g1 g3 :=
  ⟨h1.1.trans h2.1, fun y => (h1.2 y).trans (h2.2 y)⟩

/-- `presentCell` leaves the front grid unchanged on a clean cell and
otherwise only clears that cell's dirty bit (both the revert branch and the
emit branch store `Dirty := false` at `(y,x)`). -/
theorem pc_front_eq (st : RenderState) (y x : Nat) :
    (presentCell st y x).front =
      if (cellAt st.front y x).Dirty = false then st.front
      else setCellAt st.front y x { cellAt st.front y x with Dirty := false } := by
  simp only [presentCell]
  by_cases hd : (cellAt st.front y x).Dirty = false
  · rw [if_pos hd, if_pos hd]
  · rw [if_neg hd, if_neg hd]
    by_cases heq : (cellAt st.front y x).Ch = (cellAt st.back y x).Ch ∧
        (cellAt st.front y x).Fg = (cellAt st.back y x).Fg ∧
        (cellAt st.front y x).Bg = (cellAt st.back y x).Bg ∧
        (cellAt st.front y x).Bold = (cellAt st.back y x).Bold ∧
        (cellAt st.front y x).Italic = (cellAt st.back y x).Italic ∧
        (cellAt st.front y x).Under = (cellAt st.back y x).Under ∧
        (cellAt st.front y x).Rev = (cellAt st.back y x).Rev
    · rw [if_pos heq]
    · rw [if_neg heq]

theorem pc_clean (st : RenderState) (y x : Nat)
    (h : (cellAt st.front y x).Dirty = false) : presentCell st y x = st := by
  simp only [presentCell]
  rw [if_pos h]

theorem pc_self_clean (st : RenderState) (y x : Nat) :
    (cellAt (presentCell st y x).front y x).Dirty = false := by
  rw [pc_front_eq]
  by_cases hd : (cellAt st.front y x).Dirty = false
  · rw [if_pos hd]; exact hd
  · rw [if_neg hd]
    have hdt : (cellAt st.front y x).Dirty = true := by
      cases h : (cellAt st.front y x).Dirty
      · exact absurd h hd
      · rfl
    obtain ⟨hy, hx⟩ := dirty_in_range _ _ _ hdt
    rw [cellAt_setCellAt_self _ _ _ _ hy hx]

theorem pc_preserves_clean (st : RenderState) (y x y' x' : Nat)
    (h : (cellAt st.front y' x').Dirty = false) :
    (cellAt (presentCell st y x).front y' x').Dirty = false := by
  by_cases hp : y' = y ∧ x' = x
  · rw [hp.1, hp.2]; exact pc_self_clean st y x
  · rw [pc_front_eq]
    by_cases hd : (cellAt st.front y x).Dirty = false
    · rw [if_pos hd]; exact h
    · rw [if_neg hd, cellAt_setCellAt_ne]
      · exact h
      · by_cases hy : y' = y
        · exact Or.inr (fun hx => hp ⟨hy, hx⟩)
        · exact Or.inl hy

theorem pc_shape (st : RenderState) (y x : Nat) :
    sameShape (presentCell st y x).front st.front := by
  rw [pc_front_eq]
  by_cases hd : (cellAt st.front y x).Dirty = false
  · rw [if_pos hd]; exact sameShape_refl _
  · rw [if_neg hd]
    exact ⟨length_setCellAt _ _ _ _, fun y' => rowlen_setCellAt _ _ _ _ _⟩

/-! Row-level fold lemmas (the inner `for x` loop). -/

theorem row_preserves_clean (xs : List Nat) (y y' x' : Nat) :
    ∀ st : RenderState, (cellAt st.front y' x').Dirty = false →
      (cellAt ((xs.foldl (fun s x => presentCell s y x) st)).front y' x').Dirty
        = false := by
  induction xs with
  | nil => intro st h; exact h
  | cons a xs ih =>
    intro st h
    exact ih (presentCell st y a) (pc_preserves_clean st y a y' x' h)

theorem row_clean_of_mem (xs : List Nat) (y x : Nat) (hx : x ∈ xs) :
    ∀ st : RenderState,
      (cellAt ((xs.foldl (fun s x => presentCell s y x) st)).front y x).Dirty
        = false := by
  induction xs with
  | nil => cases hx
  | cons a xs ih =>
    intro st
    rcases List.mem_cons.mp hx with h | h
    · subst h
      exact row_preserves_clean xs y y x (presentCell st y x)
        (pc_self_clean st y x)
    · exact ih h (presentCell st y a)

theorem row_shape (xs : List Nat) (y : Nat) :
    ∀ st : RenderState,
      sameShape ((xs.foldl (fun s x => presentCell s y x) st)).front st.front := by
  induction xs with
  | nil => intro st; exact sameShape_refl _
  | cons a xs ih =>
    intro st
    exact sameShape_trans (ih (presentCell st y a)) (pc_shape st y a)

theorem row_noop (xs : List Nat) (y : Nat) :
    ∀ st : RenderState, (∀ x, (cellAt st.front y x).Dirty = false) →
      xs.foldl (fun s x => presentCell s y x) st = st := by
  induction xs with
  | nil => intro st _; rfl
  | cons a xs ih =>
    intro st h
    rw [List.foldl_cons, pc_clean st y a (h a)]
    exact ih st h

/-! Pass-level fold lemmas (the outer `for y` loop). -/

theorem pass_preserves_clean (ys : List Nat) (w y' x' : Nat) :
    ∀ st : RenderState, (cellAt st.front y' x').Dirty = false →
      (cellAt ((ys.foldl
          (fun s y => (List.range w).foldl (fun s x => presentCell s y x) s)
          st)).front y' x').Dirty = false := by
  induction ys with
  | nil => intro st h; exact h
  | cons b ys ih =>
    intro st h
    exact ih _ (row_preserves_clean (List.range w) b y' x' st h)

theorem pass_clean_of_mem (ys : List Nat) (w y x : Nat) (hy : y ∈ ys)
    (hx : x ∈ List.range w) :
    ∀ st : RenderState,
      (cellAt ((ys.foldl
          (fun s y => (List.range w).foldl (fun s x => presentCell s y x) s)
          st)).front y x).Dirty = false := by
  induction ys with
  | nil => cases hy
  | cons b ys ih =>
    intro st
    rcases List.mem_cons.mp hy with h | h
    · subst h
      exact pass_preserves_clean ys w y x _ (row_clean_of_mem (List.range w) y x hx st)
    · exact ih h _

theorem pass_shape (ys : List Nat) (w : Nat) :
    ∀ st : RenderState,
      sameShape ((ys.foldl
          (fun s y => (List.range w).foldl (fun s x => presentCell s y x) s)
          st)).front st.front := by
  induction ys with
  | nil => intro st; exact sameShape_refl _
  | cons b ys ih =>
    intro st
    exact sameShape_trans (ih _) (row_shape (List.range w) b st)

theorem pass_noop (ys : List Nat) (w : Nat) :
    ∀ st : RenderState, allClean st.front →
      ys.foldl (fun s y => (List.range w).foldl (fun s x => presentCell s y x) s)
        st = st := by
  induction ys with
  | nil => intro st _; rfl
  | cons b ys ih =>
    intro st h
    rw [List.foldl_cons, row_noop (List.range w) b st (fun x => h b x)]
    exact ih st h

theorem presentPass_noop (w h : Nat) (st : RenderState) (hc : allClean st.front) :
    presentPass w h st = st := pass_noop (List.range h) w st hc

/-- After the diff pass, every cell of the front grid is clean (given the
grid-dimension invariant). -/
theorem presentPass_allClean (w h : Nat) (st : RenderState)
    (hsh : gridShape st.front h w) : allClean (presentPass w h st).front := by
  intro y x
  by_cases hy : y < h
  · by_cases hx : x < w
    · exact pass_clean_of_mem (List.range h) w y x (List.mem_range.mpr hy)
        (List.mem_range.mpr hx) st
    · have hsame := pass_shape (List.range h) w st
      have hrow : (((presentPass w h st).front).getD y []).length = w := by
        rw [presentPass] at *
        rw [hsame.2 y, gridShape_rowlen hsh hy]
      rw [cellAt_oob_col _ _ _ (by omega)]
      rfl
  · have hsame := pass_shape (List.range h) w st
    have hlen : ((presentPass w h st).front).length = h := by
      rw [presentPass] at *
      rw [hsame.1, hsh.1]
    rw [cellAt_oob_row _ _ _ (by omega)]
    rfl

/-- `Present` only touches the two grids: dimensions and cursor state are
untouched. -/
theorem Present_fields (t : Terminal) :
    (Present t).1.width = t.width ∧ (Present t).1.height = t.height ∧
    (Present t).1.cursorX = t.cursorX ∧ (Present t).1.cursorY = t.cursorY ∧
    (Present t).1.cursorVisible = t.cursorVisible := by
  unfold Present
  by_cases h0 : t.width = 0 ∨ t.height = 0
  · rw [if_pos h0]; exact ⟨rfl, rfl, rfl, rfl, rfl⟩
  · rw [if_neg h0]; exact ⟨rfl, rfl, rfl, rfl, rfl⟩

/-- After one `Present`, every front-grid dirty flag is clear. -/
theorem Present_clears_dirty (t : Terminal)
    (hsh : gridShape t.buffer.Cells t.height t.width) :
    allClean (Present t).1.buffer.Cells := by
  unfold Present
  by_cases h0 : t.width = 0 ∨ t.height = 0
  · rw [if_pos h0]
    intro y x
    show (cellAt t.buffer.Cells y x).Dirty = false
    by_cases hy : y < t.height
    · have hrow := gridShape_rowlen hsh hy
      have hw0 : t.width = 0 := by
        rcases h0 with h | h
        · exact h
        · omega
      rw [cellAt_oob_col _ _ _ (by omega)]
      rfl
    · rw [cellAt_oob_row _ _ _ (by rw [hsh.1]; omega)]
      rfl
  · rw [if_neg h0]
    exact presentPass_allClean t.width t.height _ hsh

/-- On an all-clean front grid, `Present` emits nothing from the diff pass:
the whole output is the final cursor reposition when the cursor is visible at
non-negative coordinates (and on a non-empty grid), else nothing. -/
theorem Present_allClean_output (t : Terminal)
    (hc : allClean t.buffer.Cells) :
    (Present t).2 =
      if t.width ≠ 0 ∧ t.height ≠ 0 ∧ t.cursorVisible = true ∧
          0 ≤ t.cursorX ∧ 0 ≤ t.cursorY then
        appendCursorMove [] (t.cursorY + 1) (t.cursorX + 1)
      else [] := by
  simp only [Present]
  by_cases h0 : t.width = 0 ∨ t.height = 0
  · rw [if_pos h0,
      if_neg (show ¬ (t.width ≠ 0 ∧ t.height ≠ 0 ∧ t.cursorVisible = true ∧
        0 ≤ t.cursorX ∧ 0 ≤ t.cursorY) by tauto)]
  · rw [if_neg h0]
    rw [presentPass_noop t.width t.height _ hc]
    by_cases hcv : t.cursorVisible = true ∧ 0 ≤ t.cursorX ∧ 0 ≤ t.cursorY
    · rw [if_pos (show t.cursorVisible ∧ 0 ≤ t.cursorX ∧ 0 ≤ t.cursorY from hcv),
        if_pos (show t.width ≠ 0 ∧ t.height ≠ 0 ∧ t.cursorVisible = true ∧
          0 ≤ t.cursorX ∧ 0 ≤ t.cursorY by tauto)]
      rfl
    · rw [if_neg (show ¬ (t.cursorVisible ∧ 0 ≤ t.cursorX ∧ 0 ≤ t.cursorY) from hcv),
        if_neg (show ¬ (t.width ≠ 0 ∧ t.height ≠ 0 ∧ t.cursorVisible = true ∧
          0 ≤ t.cursorX ∧ 0 ≤ t.cursorY) by tauto)]
      rfl

/-- Composition: the second of two back-to-back `Present` calls emits only
the cursor reposition (or nothing). -/
theorem Present_Present_output (t : Terminal)
    (hsh : gridShape t.buffer.Cells t.height t.width) :
    (Present (Present t).1).2 =
      if t.width ≠ 0 ∧ t.height ≠ 0 ∧ t.cursorVisible = true ∧
          0 ≤ t.cursorX ∧ 0 ≤ t.cursorY then
        appendCursorMove [] (t.cursorY + 1) (t.cursorX + 1)
      else [] := by
  have hf := Present_fields t
  have hc := Present_clears_dirty t hsh
  rw [Present_allClean_output (Present t).1 hc, hf.1, hf.2.1, hf.2.2.1,
    hf.2.2.2.1, hf.2.2.2.2]

/-! ## Marking and fresh-buffer lemmas -/

theorem markRowDirty_getD (w : Nat) :
    ∀ (row : List Cell) (x0 i : Nat), i < row.length → x0 + i < w →
      ((markRowDirty w x0 row).getD i cellDefault).Dirty = true := by
  intro row
  induction row with
  | nil => intro x0 i h; simp at h
  | cons c rest ih =>
    intro x0 i h1 h2
    cases i with
    | zero =>
      simp only [markRowDirty, List.getD_cons_zero]
      rw [if_pos (by omega)]
    | succ i =>
      simp only [markRowDirty, List.getD_cons_succ]
      exact ih (x0 + 1) i (by simp at h1; omega) (by omega)

theorem markAllDirty_getD (h w : Nat) :
    ∀ (g : List (List Cell)) (y0 y : Nat), y < g.length → y0 + y < h →
      (markAllDirty h w y0 g).getD y [] = markRowDirty w 0 (g.getD y []) := by
  intro g
  induction g with
  | nil => intro y0 y hy; simp at hy
  | cons row rest ih =>
    intro y0 y hy1 hy2
    cases y with
    | zero =>
      simp only [markAllDirty, List.getD_cons_zero]
      rw [if_pos (by omega)]
    | succ y =>
      simp only [markAllDirty, List.getD_cons_succ]
      exact ih (y0 + 1) y (by simp at hy1; omega) (by omega)

theorem initBuffer_dirty (w h y x : Nat) (hy : y < h) (hx : x < w) :
    (cellAt (initBuffer w h).Cells y x).Dirty = true := by
  unfold initBuffer cellAt
  rw [getD_replicate h y _ _ hy, getD_replicate w x _ _ hx]

/-! ## Sample states for concrete checks -/

/-- The session state `Init` produces for a `w×h` terminal (all discovery
successful): both grids fresh, queue empty with capacity 256, raw mode on,
white-on-black pen, visible block cursor. -/
def initState (w h : Nat) : Terminal :=
  { width := w, height := h,
    buffer := initBuffer w h, backBuffer := initBuffer w h,
    eventQueue := [], eventCap := 256,
    initialized := true, isRaw := true,
    currentFg := 7, currentBg := 0,
    cursorVisible := true, cursorStyle := 1, escDelay := 25 }

/-- A world in which every size-discovery tier fails: no environment
override, the window-size ioctl fails, and the readiness wait times out. -/
def worldAllFail : SizeWorld := {}

/-- A world in which the readiness wait and the read succeed but the reply
does not parse as a cursor-position report. -/
def worldParseFail : SizeWorld :=
  { selReady := true, readData := some [88, 88, 88, 88, 88, 88] }

/-- A world in which the readiness wait succeeds but the read itself
fails. -/
def worldReadFail : SizeWorld := { selReady := true, readData := none }

/-- A world in which the environment override reports a 100×50 terminal. -/
def worldEnv100x50 : SizeWorld := { envCols := 100, envLines := 50 }

/-! ## Claim theorems -/

/-- C1 counterexample: on a fresh 1×1 session (visible cursor at the
origin, exactly the state `Init` leaves behind), the second of two
consecutive `Present` calls writes a non-empty byte sequence — the
unconditional cursor reposition `ESC [ 1 ; 1 H` — refuting "writes zero
bytes". -/
theorem c1_counterexample :
    (Present (Present (initState 1 1)).1).2 ≠ [] ∧
    (Present (Present (initState 1 1)).1).2 = [27, 91, 49, 59, 49, 72] := by
  decide

/-- C1 (corrected): after a `Present`, a second `Present` with no
intervening drawing calls or state changes emits nothing from the cell-diff
pass.  It writes zero bytes exactly when the grid is empty, the cursor is
hidden, or a cursor coordinate is negative; otherwise it writes exactly one
cursor-reposition sequence (the unconditional final reposition of the
visible hardware cursor). -/
theorem c1_amended_second_present (t : Terminal)
    (hsh : gridShape t.buffer.Cells t.height t.width) :
    (Present (Present t).1).2 =
      if t.width ≠ 0 ∧ t.height ≠ 0 ∧ t.cursorVisible = true ∧
          0 ≤ t.cursorX ∧ 0 ≤ t.cursorY then
        appendCursorMove [] (t.cursorY + 1) (t.cursorX + 1)
      else [] :=
  Present_Present_output t hsh

/-- C1 witness: the amended theorem evaluated on a fresh 2×2 session. -/
theorem c1_witness :
    (Present (Present (initState 2 2)).1).2 =
      if (initState 2 2).width ≠ 0 ∧ (initState 2 2).height ≠ 0 ∧
          (initState 2 2).cursorVisible = true ∧ 0 ≤ (initState 2 2).cursorX ∧
          0 ≤ (initState 2 2).cursorY then
        appendCursorMove [] ((initState 2 2).cursorY + 1)
          ((initState 2 2).cursorX + 1)
      else [] :=
  c1_amended_second_present (initState 2 2) (by decide)

/-- C9 (confirmed): `SetCell` at any coordinate outside
`[0,width)×[0,height)` returns the session state unchanged — grids, dirty
flags, and every other field — and raises no error. -/
theorem c9_setCell_oob_noop (t : Terminal) (x y : Int) (ch : Nat) (fg bg : Int)
    (h : x < 0 ∨ (t.width : Int) ≤ x ∨ y < 0 ∨ (t.height : Int) ≤ y) :
    SetCell t x y ch fg bg = t := by
  unfold SetCell
  rw [if_pos h]

/-- C9 witness: an out-of-bounds write on a 2×2 session is the identity. -/
theorem c9_witness : SetCell (initState 2 2) 5 0 65 7 0 = initState 2 2 :=
  c9_setCell_oob_noop (initState 2 2) 5 0 65 7 0 (by decide)

/-- C10 (confirmed): `GetCell` outside `[0,width)×[0,height)` returns the
blank-cell values (space glyph 32, fg 7, bg 0) without failing, and an
untouched in-bounds cell of a freshly initialized session reads back exactly
the same triple — the two are indistinguishable. -/
theorem c10_getCell_oob_default :
    (∀ (t : Terminal) (x y : Int),
      (x < 0 ∨ (t.width : Int) ≤ x ∨ y < 0 ∨ (t.height : Int) ≤ y) →
      GetCell t x y = (32, 7, 0)) ∧
    (∀ (w h : Nat) (x y : Int), 0 ≤ x → x < (w : Int) → 0 ≤ y → y < (h : Int) →
      GetCell (initState w h) x y = (32, 7, 0)) := by
  constructor
  · intro t x y h
    unfold GetCell
    rw [if_pos h]
  · intro w h x y hx0 hxw hy0 hyh
    unfold GetCell
    rw [if_neg (by push_neg; refine ⟨hx0, by simpa [initState] using hxw, hy0,
      by simpa [initState] using hyh⟩)]
    show ((cellAt (initState w h).buffer.Cells y.toNat x.toNat).Ch,
      (cellAt (initState w h).buffer.Cells y.toNat x.toNat).Fg,
      (cellAt (initState w h).buffer.Cells y.toNat x.toNat).Bg) = (32, 7, 0)
    have hcell : cellAt (initState w h).buffer.Cells y.toNat x.toNat =
        { Ch := 32, Fg := 7, Bg := 0, Dirty := true } := by
      show cellAt (initBuffer w h).Cells y.toNat x.toNat = _
      unfold initBuffer cellAt
      rw [getD_replicate h y.toNat _ _ (by omega), getD_replicate w x.toNat _ _ (by omega)]
    rw [hcell]

/-- C10 witness: an out-of-bounds read and a fresh in-bounds read, both on
concrete sessions, yield the blank triple. -/
theorem c10_witness :
    GetCell (initState 2 2) 5 5 = (32, 7, 0) ∧
    GetCell (initState 3 3) 1 1 = (32, 7, 0) :=
  ⟨c10_getCell_oob_default.1 (initState 2 2) 5 5 (by decide),
   c10_getCell_oob_default.2 3 3 1 1 (by decide) (by decide) (by decide) (by decide)⟩

/-- C3 counterexample: on an initialized 1×1 session right after `Clear`
(whose back-buffer cells are not dirty), `Suspend` followed by `Resume`
leaves the back-buffer cell **not** dirty — `Resume` marks only the front
grid, refuting "every cell in both the front and the back grid is marked
dirty". -/
theorem c3_counterexample :
    (Clear (initState 1 1)).initialized = true ∧
    (cellAt ((Resume (Suspend (Clear (initState 1 1))).1).1).backBuffer.Cells
      0 0).Dirty = false := by
  decide

/-- C3 (corrected): on an initialized session, `Suspend` followed by
`Resume` re-enables raw mode, preserves the dimensions and the drawing-pen
state (colors and the four attribute flags), and marks every cell of the
**front** grid dirty; the back grid is left untouched. -/
theorem c3_amended_suspend_resume (t : Terminal) (hini : t.initialized = true)
    (hsh : gridShape t.buffer.Cells t.height t.width) :
    ((Resume (Suspend t).1).1).isRaw = true ∧
    ((Resume (Suspend t).1).1).width = t.width ∧
    ((Resume (Suspend t).1).1).height = t.height ∧
    ((Resume (Suspend t).1).1).currentFg = t.currentFg ∧
    ((Resume (Suspend t).1).1).currentBg = t.currentBg ∧
    ((Resume (Suspend t).1).1).currentBold = t.currentBold ∧
    ((Resume (Suspend t).1).1).currentItalic = t.currentItalic ∧
    ((Resume (Suspend t).1).1).currentUnder = t.currentUnder ∧
    ((Resume (Suspend t).1).1).currentRev = t.currentRev ∧
    (∀ y x, y < t.height → x < t.width →
      (cellAt ((Resume (Suspend t).1).1).buffer.Cells y x).Dirty = true) ∧
    ((Resume (Suspend t).1).1).backBuffer = t.backBuffer := by
  have hni : ¬ t.initialized = false := by rw [hini]; simp
  have hs1 : (Suspend t).1 = { t with isRaw := false } := by
    unfold Suspend
    rw [if_neg hni]
  have hr : (Resume (Suspend t).1).1 = { t with
      isRaw := true,
      buffer := { t.buffer with Cells :=
        (markAllDirty t.height t.width 0 t.buffer.Cells) } } := by
    rw [hs1]
    unfold Resume
    rw [if_neg hni]
  rw [hr]
  refine ⟨rfl, rfl, rfl, rfl, rfl, rfl, rfl, rfl, rfl, ?_, rfl⟩
  intro y x hy hx
  show (cellAt (markAllDirty t.height t.width 0 t.buffer.Cells) y x).Dirty = true
  unfold cellAt
  rw [markAllDirty_getD t.height t.width t.buffer.Cells 0 y (by rw [hsh.1]; omega)
    (by omega)]
  exact markRowDirty_getD t.width (t.buffer.Cells.getD y []) 0 x
    (by rw [gridShape_rowlen hsh hy]; omega) (by omega)

/-- C3 witness: the amended theorem evaluated on a fresh 1×2 session. -/
theorem c3_witness :
    ((Resume (Suspend (initState 1 2)).1).1).isRaw = true ∧
    ((Resume (Suspend (initState 1 2)).1).1).width = (initState 1 2).width ∧
    ((Resume (Suspend (initState 1 2)).1).1).height = (initState 1 2).height ∧
    ((Resume (Suspend (initState 1 2)).1).1).currentFg = (initState 1 2).currentFg ∧
    ((Resume (Suspend (initState 1 2)).1).1).currentBg = (initState 1 2).currentBg ∧
    ((Resume (Suspend (initState 1 2)).1).1).currentBold = (initState 1 2).currentBold ∧
    ((Resume (Suspend (initState 1 2)).1).1).currentItalic = (initState 1 2).currentItalic ∧
    ((Resume (Suspend (initState 1 2)).1).1).currentUnder = (initState 1 2).currentUnder ∧
    ((Resume (Suspend (initState 1 2)).1).1).currentRev = (initState 1 2).currentRev ∧
    (∀ y x, y < (initState 1 2).height → x < (initState 1 2).width →
      (cellAt ((Resume (Suspend (initState 1 2)).1).1).buffer.Cells y x).Dirty
        = true) ∧
    ((Resume (Suspend (initState 1 2)).1).1).backBuffer = (initState 1 2).backBuffer :=
  c3_amended_suspend_resume (initState 1 2) (by decide) (by decide)

/-- C5 (confirmed): when the resize listener's size re-query succeeds with a
changed size `(w2,h2)`, it installs the new dimensions, reallocates both
grids to `w2×h2` with every cell dirty, and appends exactly one resize event
when the queue is below capacity — otherwise the queue is left unchanged
(the event is silently dropped) and nothing blocks or errors. -/
theorem c5_resize_spec (w : SizeWorld) (t : Terminal) (w2 h2 : Nat)
    (hq : getTermSize w = (w2, h2, none))
    (hch : w2 ≠ t.width ∨ h2 ≠ t.height) :
    (handleSigwinchStep w t).width = w2 ∧
    (handleSigwinchStep w t).height = h2 ∧
    (handleSigwinchStep w t).buffer = initBuffer w2 h2 ∧
    (handleSigwinchStep w t).backBuffer = initBuffer w2 h2 ∧
    (∀ y x, y < h2 → x < w2 →
      (cellAt (handleSigwinchStep w t).buffer.Cells y x).Dirty = true) ∧
    (handleSigwinchStep w t).eventQueue =
      (if t.eventQueue.length < t.eventCap then t.eventQueue ++ [resizeEvent]
       else t.eventQueue) ∧
    (handleSigwinchStep w t).eventQueue.length = t.eventQueue.length +
      (if t.eventQueue.length < t.eventCap then 1 else 0) := by
  have hstep : handleSigwinchStep w t = { t with
      width := w2, height := h2,
      buffer := initBuffer w2 h2, backBuffer := initBuffer w2 h2,
      eventQueue :=
        if t.eventQueue.length < t.eventCap then t.eventQueue ++ [resizeEvent]
        else t.eventQueue } := by
    unfold handleSigwinchStep
    rw [hq]
    exact if_pos hch
  rw [hstep]
  refine ⟨rfl, rfl, rfl, rfl, ?_, rfl, ?_⟩
  · intro y x hy hx
    exact initBuffer_dirty w2 h2 y x hy hx
  · by_cases hcap : t.eventQueue.length < t.eventCap
    · rw [if_pos hcap, if_pos hcap]
      simp
    · rw [if_neg hcap, if_neg hcap]
      simp

/-- C5 witness: a 2×2 session observing a change to 100×50 through the
environment tier, with room in the queue. -/
theorem c5_witness :
    (handleSigwinchStep worldEnv100x50 (initState 2 2)).width = 100 ∧
    (handleSigwinchStep worldEnv100x50 (initState 2 2)).height = 50 ∧
    (handleSigwinchStep worldEnv100x50 (initState 2 2)).buffer = initBuffer 100 50 ∧
    (handleSigwinchStep worldEnv100x50 (initState 2 2)).backBuffer = initBuffer 100 50 ∧
    (∀ y x, y < 50 → x < 100 →
      (cellAt (handleSigwinchStep worldEnv100x50 (initState 2 2)).buffer.Cells
        y x).Dirty = true) ∧
    (handleSigwinchStep worldEnv100x50 (initState 2 2)).eventQueue =
      (if (initState 2 2).eventQueue.length < (initState 2 2).eventCap then
        (initState 2 2).eventQueue ++ [resizeEvent]
       else (initState 2 2).eventQueue) ∧
    (handleSigwinchStep worldEnv100x50 (initState 2 2)).eventQueue.length =
      (initState 2 2).eventQueue.length +
      (if (initState 2 2).eventQueue.length < (initState 2 2).eventCap then 1
       else 0) :=
  c5_resize_spec worldEnv100x50 (initState 2 2) 100 50 (by decide) (by decide)

/-- C2 counterexample: when every discovery tier fails (no environment
override, ioctl failure, readiness timeout), `getTermSize` returns `(80,24)`
**with an error**, and `Init` propagates it: `Init` fails instead of
succeeding with an 80×24 grid. -/
theorem c2_counterexample :
    Init worldAllFail ({} : Terminal) =
      Except.error "terminal size query timeout" ∧
    exceptIsOk (Init worldAllFail ({} : Terminal)) = false :=
  ⟨rfl, rfl⟩

/-- When the self-query tier is reached and a reply of at least 6 bytes is
read, size discovery reports no error, whatever the reply contains. -/
theorem getTermSize_noerr_of_read (w : SizeWorld)
    (henv : ¬ (0 < w.envCols ∧ 0 < w.envLines)) (hws : w.winsz = none)
    (hsel : w.selReady = true) (resp : List Nat)
    (hrd : w.readData = some resp) (hlen6 : ¬ resp.length < 6) :
    (getTermSize w).2.2 = none := by
  simp only [getTermSize, queryTermSize, henv, hws, hsel, hrd, hlen6, if_true,
    if_false, ite_true, ite_false]
  by_cases hh : byteAt resp 0 = 27 ∧ byteAt resp 1 = 91
  · rw [if_pos hh]
    cases hrep : parseCursorReport (resp.drop 2) with
    | none => rfl
    | some rc => obtain ⟨r, c⟩ := rc; rfl
  · rw [if_neg hh]
    rfl

/-- C2 (corrected): with the first two tiers failing, the self-query tier
decides the outcome.  (1) A readiness timeout/failure yields `(80,24)` with
the timeout error, which `Init` propagates as fatal; (2) a read failure and
(3) a reply shorter than 6 bytes yield `(80,24)` with the read error, again
fatal for `Init`; (4) a reply of at least 6 bytes that fails to parse as a
cursor report yields `(80,24)` with no error and `Init` succeeds with an
80×24 session; (5) a reply that parses as `ESC [ row ; col R` yields
`(col,row)` with no error and `Init` succeeds at that size; and (6)
discovery reports an error precisely when the wait timed out, the read
failed, or the reply was shorter than 6 bytes. -/
theorem c2_amended_size_fallback (w : SizeWorld) (t : Terminal)
    (hinit : t.initialized = false)
    (henv : ¬ (0 < w.envCols ∧ 0 < w.envLines)) (hws : w.winsz = none) :
    (w.selReady = false →
      getTermSize w = (80, 24, some "terminal size query timeout") ∧
      Init w t = Except.error "terminal size query timeout") ∧
    (w.selReady = true → w.readData = none →
      getTermSize w = (80, 24, some "failed to read terminal response") ∧
      Init w t = Except.error "failed to read terminal response") ∧
    (∀ resp, w.selReady = true → w.readData = some resp → resp.length < 6 →
      getTermSize w = (80, 24, some "failed to read terminal response") ∧
      Init w t = Except.error "failed to read terminal response") ∧
    (∀ resp, w.selReady = true → w.readData = some resp → 6 ≤ resp.length →
      (byteAt resp 0 = 27 ∧ byteAt resp 1 = 91 →
        parseCursorReport (resp.drop 2) = none) →
      w.rawOk = true →
      getTermSize w = (80, 24, none) ∧
      Init w t = Except.ok { t with
        width := 80, height := 24,
        buffer := initBuffer 80 24, backBuffer := initBuffer 80 24,
        eventQueue := [], eventCap := 256, initialized := true, isRaw := true,
        currentFg := 7, currentBg := 0, cursorVisible := true,
        cursorStyle := 1, escDelay := 25 }) ∧
    (∀ resp row col, w.selReady = true → w.readData = some resp →
      6 ≤ resp.length → byteAt resp 0 = 27 → byteAt resp 1 = 91 →
      parseCursorReport (resp.drop 2) = some (row, col) → w.rawOk = true →
      getTermSize w = (col, row, none) ∧
      Init w t = Except.ok { t with
        width := col, height := row,
        buffer := initBuffer col row, backBuffer := initBuffer col row,
        eventQueue := [], eventCap := 256, initialized := true, isRaw := true,
        currentFg := 7, currentBg := 0, cursorVisible := true,
        cursorStyle := 1, escDelay := 25 }) ∧
    ((getTermSize w).2.2 ≠ none ↔
      (w.selReady = false ∨ w.readData = none ∨
        ∃ resp, w.readData = some resp ∧ resp.length < 6)) := by
  have hni : ¬ t.initialized = true := by rw [hinit]; simp
  refine ⟨?_, ?_, ?_, ?_, ?_, ?_⟩
  · -- (1) readiness timeout
    intro hsel
    have hg : getTermSize w = (80, 24, some "terminal size query timeout") := by
      simp only [getTermSize, queryTermSize, henv, hws, hsel, if_true, if_false,
        ite_true, ite_false]
    refine ⟨hg, ?_⟩
    unfold Init
    rw [if_neg hni, hg]
  · -- (2) read failure
    intro hsel hrd
    have hg : getTermSize w = (80, 24, some "failed to read terminal response") := by
      simp only [getTermSize, queryTermSize, henv, hws, hsel, hrd, if_true,
        if_false, ite_true, ite_false]
      norm_num
    refine ⟨hg, ?_⟩
    unfold Init
    rw [if_neg hni, hg]
  · -- (3) short reply
    intro resp hsel hrd hshort
    have hg : getTermSize w = (80, 24, some "failed to read terminal response") := by
      simp only [getTermSize, queryTermSize, henv, hws, hsel, hrd, hshort,
        if_true, if_false, ite_true, ite_false]
      norm_num
    refine ⟨hg, ?_⟩
    unfold Init
    rw [if_neg hni, hg]
  · -- (4) long reply that fails to parse
    intro resp hsel hrd hlen hpf hraw
    have hlen6 : ¬ resp.length < 6 := by omega
    have hg : getTermSize w = (80, 24, none) := by
      by_cases hh : byteAt resp 0 = 27 ∧ byteAt resp 1 = 91
      · have hrep := hpf hh
        simp only [getTermSize, queryTermSize, henv, hws, hsel, hrd, hlen6,
          hh.1, hh.2, hrep, eq_self_iff_true, and_self, if_true, if_false,
          ite_true, ite_false]
        norm_num
      · simp only [getTermSize, queryTermSize, henv, hws, hsel, hrd, hlen6, hh,
          if_true, if_false, ite_true, ite_false]
        norm_num
    refine ⟨hg, ?_⟩
    unfold Init
    rw [if_neg hni, hg]
    show (if w.rawOk = false then (Except.error "mode error" : Except String Terminal)
      else _) = _
    rw [if_neg (by rw [hraw]; simp)]
  · -- (5) long reply that parses
    intro resp row col hsel hrd hlen h0 h1 hrep hraw
    have hlen6 : ¬ resp.length < 6 := by omega
    have hg : getTermSize w = (col, row, none) := by
      simp only [getTermSize, queryTermSize, henv, hws, hsel, hrd, hlen6, h0,
        h1, hrep, eq_self_iff_true, and_self, if_true, if_false, ite_true,
        ite_false]
      norm_num
    refine ⟨hg, ?_⟩
    unfold Init
    rw [if_neg hni, hg]
    show (if w.rawOk = false then (Except.error "mode error" : Except String Terminal)
      else _) = _
    rw [if_neg (by rw [hraw]; simp)]
  · -- (6) discovery errors exactly on timeout / read failure / short reply
    constructor
    · intro herr
      by_cases hsel : w.selReady = false
      · exact Or.inl hsel
      · have hsel' : w.selReady = true := by
          cases h : w.selReady
          · exact absurd h hsel
          · rfl
        cases hrd : w.readData with
        | none => exact Or.inr (Or.inl rfl)
        | some resp =>
          by_cases hshort : resp.length < 6
          · exact Or.inr (Or.inr ⟨resp, rfl, hshort⟩)
          · exact absurd (getTermSize_noerr_of_read w henv hws hsel' resp hrd
              hshort) herr
    · intro hdisj
      rcases hdisj with hsel | hrd | ⟨resp, hrd, hshort⟩
      · have hg : getTermSize w = (80, 24, some "terminal size query timeout") := by
          simp only [getTermSize, queryTermSize, henv, hws, hsel, if_true,
            if_false, ite_true, ite_false]
        rw [hg]
        simp
      · by_cases hsel : w.selReady = false
        · have hg : getTermSize w =
              (80, 24, some "terminal size query timeout") := by
            simp only [getTermSize, queryTermSize, henv, hws, hsel, if_true,
              if_false, ite_true, ite_false]
          rw [hg]
          simp
        · have hsel' : w.selReady = true := by
            cases h : w.selReady
            · exact absurd h hsel
            · rfl
          have hg : getTermSize w =
              (80, 24, some "failed to read terminal response") := by
            simp only [getTermSize, queryTermSize, henv, hws, hsel', hrd,
              if_true, if_false, ite_true, ite_false]
            norm_num
          rw [hg]
          simp
      · by_cases hsel : w.selReady = false
        · have hg : getTermSize w =
              (80, 24, some "terminal size query timeout") := by
            simp only [getTermSize, queryTermSize, henv, hws, hsel, if_true,
              if_false, ite_true, ite_false]
          rw [hg]
          simp
        · have hsel' : w.selReady = true := by
            cases h : w.selReady
            · exact absurd h hsel
            · rfl
          have hg : getTermSize w =
              (80, 24, some "failed to read terminal response") := by
            simp only [getTermSize, queryTermSize, henv, hws, hsel', hrd,
              hshort, if_true, if_false, ite_true, ite_false]
            norm_num
          rw [hg]
          simp

/-- C2 witness: four concrete worlds — readiness timeout and read failure
make `Init` fail with the propagated discovery error, the parse-failure
world makes it succeed at 80×24, and the error-characterization evaluated
on the timeout world. -/
theorem c2_witness :
    Init worldAllFail ({} : Terminal) =
      Except.error "terminal size query timeout" ∧
    Init worldReadFail ({} : Terminal) =
      Except.error "failed to read terminal response" ∧
    (∃ t', Init worldParseFail ({} : Terminal) = Except.ok t' ∧
      t'.width = 80 ∧ t'.height = 24) ∧
    (getTermSize worldAllFail).2.2 ≠ none :=
  ⟨((c2_amended_size_fallback worldAllFail {} rfl (by decide) rfl).1 rfl).2,
   ((c2_amended_size_fallback worldReadFail {} rfl (by decide) rfl).2.1
      rfl rfl).2,
   ⟨_, ((c2_amended_size_fallback worldParseFail {} rfl (by decide) rfl).2.2.2.1
      [88, 88, 88, 88, 88, 88] rfl rfl (by decide) (by decide) rfl).2,
    rfl, rfl⟩,
   (c2_amended_size_fallback worldAllFail {} rfl (by decide) rfl).2.2.2.2.2.mpr
     (Or.inl rfl)⟩

/-- C4 counterexample: the SGR decoder performs no bounds check against the
grid: the report `ESC [ < 0 ; 0 ; 0 M` decodes to a mouse event at
`(-1,-1)`, which is outside every grid (its coordinates are negative), so
in-bounds coordinates are not "impossible by construction". -/
theorem c4_counterexample :
    parseInput [27, 91, 60, 48, 59, 48, 59, 48, 77] = Except.ok
      { Etype := EventMouse, Button := MouseLeft, X := -1, Y := -1,
        Press := true } ∧
    ¬ (0 : Int) ≤ -1 := by
  decide

/-- C4 (corrected): decoded SGR mouse coordinates are exactly the reported
ones minus 1, with no clamping to the grid; they land inside a `w×h` grid
precisely when the terminal reports 1-based coordinates within
`[1,w]×[1,h]`. -/
theorem c4_amended_sgr_bounds (b x y w h : Nat) (press : Bool)
    (hx1 : 1 ≤ x) (hxw : x ≤ w) (hy1 : 1 ≤ y) (hyh : y ≤ h) :
    ∃ e, parseInput (mkSGR b x y press) = Except.ok e ∧ e.Etype = EventMouse ∧
      e.X = (x : Int) - 1 ∧ e.Y = (y : Int) - 1 ∧
      0 ≤ e.X ∧ e.X < (w : Int) ∧ 0 ≤ e.Y ∧ e.Y < (h : Int) := by
  refine ⟨sgrEvent b x y press, parseInput_mkSGR b x y press, rfl, rfl, rfl,
    ?_, ?_, ?_, ?_⟩ <;> (simp only [sgrEvent]; omega)

/-- C4 witness: the amended theorem at `ESC [ < 0 ; 5 ; 10 M` on an 80×24
grid. -/
theorem c4_witness :
    ∃ e, parseInput (mkSGR 0 5 10 true) = Except.ok e ∧ e.Etype = EventMouse ∧
      e.X = (5 : Int) - 1 ∧ e.Y = (10 : Int) - 1 ∧
      0 ≤ e.X ∧ e.X < (80 : Int) ∧ 0 ≤ e.Y ∧ e.Y < (24 : Int) :=
  c4_amended_sgr_bounds 0 5 10 80 24 true (by decide) (by decide) (by decide)
    (by decide)

/-- C6 (confirmed): for every well-formed SGR chunk
`ESC [ < b ; x ; y (M|m)` the decoder returns a mouse event whose button is
the low-2-bits selection (left/middle/right, with 3 falling back to left),
reclassified as a wheel event when `b ≥ 64` with direction by bit-0 parity;
whose coordinates are `(x-1, y-1)`; and whose press flag is true exactly for
terminator `M`.  In particular `ESC [ < 0 ; 5 ; 10 M` is a left press at
`(4,9)` and `ESC [ < 64 ; 5 ; 10 M` is wheel-up at `(4,9)`. -/
theorem c6_sgr_decode_spec :
    (∀ (b x y : Nat) (press : Bool),
      parseInput (mkSGR b x y press) = Except.ok (sgrEvent b x y press)) ∧
    (∀ (b x y : Nat) (press : Bool),
      (sgrEvent b x y press).Etype = EventMouse ∧
      (sgrEvent b x y press).Button = sgrButton b ∧
      (sgrEvent b x y press).X = (x : Int) - 1 ∧
      (sgrEvent b x y press).Y = (y : Int) - 1 ∧
      (sgrEvent b x y press).Press = press) ∧
    (∀ b, 64 ≤ b →
      sgrButton b = (if b % 2 = 1 then MouseWheelDown else MouseWheelUp)) ∧
    (∀ b, b < 64 → sgrButton b = (match b % 4 with
      | 0 => MouseLeft | 1 => MouseMiddle | 2 => MouseRight
      | _ => MouseLeft)) ∧
    parseInput [27, 91, 60, 48, 59, 53, 59, 49, 48, 77] = Except.ok
      { Etype := EventMouse, Button := MouseLeft, X := 4, Y := 9,
        Press := true } ∧
    parseInput [27, 91, 60, 54, 52, 59, 53, 59, 49, 48, 77] = Except.ok
      { Etype := EventMouse, Button := MouseWheelUp, X := 4, Y := 9,
        Press := true } := by
  refine ⟨parseInput_mkSGR, fun b x y press => ⟨rfl, rfl, rfl, rfl, rfl⟩,
    ?_, ?_, by decide, by decide⟩
  · intro b hb
    unfold sgrButton
    rw [if_pos hb]
  · intro b hb
    unfold sgrButton
    rw [if_neg (by omega)]

/-- C6 witness: wheel classification and a full decode at concrete
inputs. -/
theorem c6_witness :
    sgrButton 65 = MouseWheelDown ∧ sgrButton 2 = MouseRight :=
  ⟨(c6_sgr_decode_spec.2.2.1 65 (by decide)).trans (by decide),
   (c6_sgr_decode_spec.2.2.2.1 2 (by decide)).trans (by decide)⟩

/-- C7 counterexample: the legacy decoder's wheel rule is `b &&& 64 ≠ 0`,
not SGR's `b ≥ 64`; for the report `ESC [ M 160 33 33` the button code is
`160 - 32 = 128`, which legacy decoding classifies as left while the SGR
rule classifies as wheel-up — so the button rules are **not** the same as
the SGR protocol's. -/
theorem c7_counterexample :
    parseInput [27, 91, 77, 160, 33, 33] = Except.ok
      { Etype := EventMouse, Button := MouseLeft, X := 1, Y := 1,
        Press := true } ∧
    sgrButton ((160 + 224) % 256) = MouseWheelUp ∧
    MouseLeft ≠ MouseWheelUp := by
  decide

/-- C7 (corrected): for `ESC [ M` plus three bytes the decoder reports a
mouse event with button code `first byte − 32` (byte arithmetic, i.e. modulo
256), low 2 bits selecting left/middle/right and **bit 6** (`b & 64`)
reclassifying as wheel with direction by bit-0 parity.  This coincides with
the SGR rule (`b ≥ 64`) exactly for button codes outside 128–191: the two
agree below 128 and in 192–255, and disagree precisely on 128–191, where
bit 6 is clear although `b ≥ 64`.  `x`/`y` are the next two bytes minus 32
with no further decrement (1-based, unlike SGR), and the event is always a
press. -/
theorem c7_amended_legacy_mouse :
    (∀ b1 b2 b3 : Nat, parseInput [27, 91, 77, b1, b2, b3] = Except.ok
      { Etype := EventMouse, Button := legacyButton ((b1 + 224) % 256),
        X := (b2 : Int) - 32, Y := (b3 : Int) - 32, Press := true }) ∧
    (∀ b, b &&& 64 ≠ 0 →
      legacyButton b = (if b % 2 = 1 then MouseWheelDown else MouseWheelUp)) ∧
    (∀ b, b &&& 64 = 0 → legacyButton b = (match b % 4 with
      | 0 => MouseLeft | 1 => MouseMiddle | 2 => MouseRight
      | _ => MouseLeft)) ∧
    (∀ b, b < 256 → (legacyButton b = sgrButton b ↔ ¬ (128 ≤ b ∧ b ≤ 191))) := by
  refine ⟨parseInput_legacyMouse, ?_, ?_, legacyButton_eq_sgrButton_iff⟩
  · intro b hb
    unfold legacyButton
    rw [if_pos hb]
  · intro b hb
    unfold legacyButton
    rw [if_neg (by rw [hb]; simp)]

/-- C7 witness: the amended rules at concrete button codes — agreement at
64 and 200, disagreement at 128, wheel classification at 65. -/
theorem c7_witness :
    legacyButton 64 = sgrButton 64 ∧ legacyButton 200 = sgrButton 200 ∧
    legacyButton 128 ≠ sgrButton 128 ∧ legacyButton 65 = MouseWheelDown :=
  ⟨(c7_amended_legacy_mouse.2.2.2 64 (by decide)).mpr (by decide),
   (c7_amended_legacy_mouse.2.2.2 200 (by decide)).mpr (by decide),
   fun hc => (c7_amended_legacy_mouse.2.2.2 128 (by decide)).mp hc (by decide),
   (c7_amended_legacy_mouse.2.1 65 (by decide)).trans (by decide)⟩

/-- C8 (confirmed): the decoder is total on non-empty chunks — it returns an
event and never an error; a lone `ESC` decodes to the Escape key, and an
unrecognized `ESC [` sequence (here `ESC [ Z`) falls back to the Escape
key. -/
theorem c8_decoder_total :
    (∀ buf : List Nat, buf ≠ [] → ∃ e, parseInput buf = Except.ok e) ∧
    parseInput [27] = Except.ok { Etype := EventKey, Key := KeyEscape } ∧
    parseInput [27, 91, 90] = Except.ok { Etype := EventKey, Key := KeyEscape } :=
  ⟨parseInput_ok, by decide, by decide⟩

/-- C8 witness: totality evaluated at the byte `13` (which decodes to
Enter). -/
theorem c8_witness : ∃ e, parseInput [13] = Except.ok e :=
  c8_decoder_total.1 [13] (by decide)

end Tb
